import Mathlib

/-!
NpsBeamSensor: geometry resolver and capture pipeline

A shallow embedding of `src/sensor/NpsBeamSensor.cc`.

Numbers.  A C++ `double` is embedded in `Dbl K`: the finite values are the
elements of an ordered field `K` (exact arithmetic, no rounding, no signed
zero), next to the three special values NaN, +inf and -inf.  Comparisons follow
IEEE 754: every comparison with NaN is false.  The geometry computed by `Init`
is embedded in exact arithmetic over `K`; the trigonometric functions and the
constant `M_PI` it uses are the fields of `Trig K`.  Taking `K = ℝ` with
`Real.pi`, `Real.tan`, `Real.arctan`, `Real.cos` gives the real-arithmetic
reading of the code, `K = ℚ` gives an executable one.

Integers.  `unsigned int` values are natural numbers reduced modulo `2^32`,
`int` values are integers; conversions between the two wrap.
-/

namespace NpsBeam

/-! ## Doubles -/

/-- A C++ `double`: NaN, the two infinities, or a finite value. -/
inductive Dbl (K : Type) where
  | nan : Dbl K
  | ninf : Dbl K
  | pinf : Dbl K
  | fin (x : K) : Dbl K
deriving DecidableEq

namespace Dbl

variable {K : Type} [LinearOrderedField K]

/-- IEEE `a < b`; false as soon as an operand is NaN. -/
def lt : Dbl K → Dbl K → Bool
  | fin a, fin b => decide (a < b)
  | ninf, fin _ => true
  | ninf, pinf => true
  | fin _, pinf => true
  | _, _ => false

/-- IEEE `a <= b`; false as soon as an operand is NaN. -/
def le : Dbl K → Dbl K → Bool
  | fin a, fin b => decide (a ≤ b)
  | ninf, ninf => true
  | ninf, fin _ => true
  | ninf, pinf => true
  | fin _, pinf => true
  | pinf, pinf => true
  | _, _ => false

/-- IEEE `a >= b`. -/
def ge (a b : Dbl K) : Bool := le b a

/-- IEEE `a > b`. -/
def gt (a b : Dbl K) : Bool := lt b a

/-- The test `ignition::math::isnan`. -/
def isnan : Dbl K → Bool
  | nan => true
  | _ => false

/-- The function `std::min(a, b)`, which is `(b < a) ? b : a`. -/
def stdMin (a b : Dbl K) : Dbl K := if lt b a then b else a

/-- The function `std::max(a, b)`, which is `(a < b) ? b : a`. -/
def stdMax (a b : Dbl K) : Dbl K := if lt a b then b else a

/-- The function `ignition::math::clamp(v, min, max)`, defined in ignition-math as
`std::max(std::min(v, max), min)`. -/
def clamp (v lo hi : Dbl K) : Dbl K := stdMax (stdMin v hi) lo

/-- The quotient `a / b` of two finite doubles, the divisor being a converted
integer (so a zero divisor is `+0.0`): a zero divisor gives NaN for a zero
dividend and an infinity of the dividend's sign otherwise. -/
def divFinite (a b : K) : Dbl K :=
  if b = 0 then (if a = 0 then nan else if 0 < a then pinf else ninf)
  else fin (a / b)

end Dbl

/-! ## Machine integers -/

/-- Conversion of an `unsigned int` to `int` (two's complement). -/
def toInt32 (n : Nat) : Int :=
  if n % 2 ^ 32 < 2 ^ 31 then ((n % 2 ^ 32 : Nat) : Int)
  else ((n % 2 ^ 32 : Nat) : Int) - 2 ^ 32

/-- Conversion of an `int` to `unsigned int` (reduction modulo `2^32`). -/
def toUInt32 (z : Int) : Nat := (z % 2 ^ 32).toNat

/-- Conversion of a finite `double` to `int`: truncation toward zero.  The
source leaves the conversion undefined outside the range of `int`; the
embedding keeps the truncated integer. -/
def truncToInt {K : Type} [LinearOrderedField K] [FloorRing K] (x : K) : Int :=
  if 0 ≤ x then Int.floor x else Int.ceil x

/-! ## Per-sample post-processing (the loop body of `UpdateImpl`) -/

section Mask

variable {K : Type} [LinearOrderedField K]

/-- The range stored for one raw sample by `UpdateImpl` (lines 615-634):
masking to the infinities, then the optional noise model followed by the clamp,
then the replacement of NaN by `RangeMax()`. -/
def maskRange (noise : Option (Dbl K → Dbl K)) (rangeMin rangeMax r : Dbl K) : Dbl K :=
  let range :=
    if Dbl.ge r rangeMax then Dbl.pinf
    else if Dbl.le r rangeMin then Dbl.ninf
    else match noise with
      | some apply => Dbl.clamp (apply r) rangeMin rangeMax
      | none => r
  if Dbl.isnan range then rangeMax else range

end Mask

/-! ## Data model -/

/-- The constant `M_PI` and the functions of `<cmath>` used by `Init`. -/
structure Trig (K : Type) where
  pi : K
  tan : K → K
  atan : K → K
  cos : K → K

/-- The `<horizontal>` or `<vertical>` element of the `<scan>` description. -/
structure ScanAxis (K : Type) where
  samples : Nat
  resolution : K
  min_angle : K
  max_angle : K

/-- The `<range>` element of the `<ray>` description. -/
structure RangeElem (K : Type) where
  min : Dbl K
  max : Dbl K

/-- The `<ray>` description read by `Load`; `vertical` and `noise` are optional
elements, `noise` being the noise model that `NoiseFactory` builds from it. -/
structure RayElem (K : Type) where
  horizontal : ScanAxis K
  vertical : Option (ScanAxis K)
  range : RangeElem K
  noise : Option (Dbl K → Dbl K)

/-- The fields of `rendering::GpuLaser` that the sensor sets and reads back. -/
structure GpuLaser (K : Type) where
  horzFOV : K
  vertFOV : K
  horzHalfAngle : K
  vertHalfAngle : K
  cosHorzFOV : K
  cosVertFOV : K
  rayCountRatio : K
  nearClip : Dbl K
  farClip : Dbl K
  cameraCount : Nat
  isHorizontal : Bool

/-- A pose, as stored in the scan message. -/
structure Pose (K : Type) where
  x : K
  y : K
  z : K
  roll : K
  pitch : K
  yaw : K

/-- The message `msgs::LaserScan`. -/
structure LaserScan (K : Type) where
  world_pose : Pose K
  angle_min : K
  angle_max : K
  angle_step : Dbl K
  count : Nat
  vertical_angle_min : K
  vertical_angle_max : K
  vertical_angle_step : Dbl K
  vertical_count : Nat
  range_min : Dbl K
  range_max : Dbl K
  ranges : List (Dbl K)
  intensities : List (Dbl K)

/-- The message `msgs::LaserScanStamped`. -/
structure LaserScanStamped (K : Type) where
  time : Nat
  scan : LaserScan K

/-- Modelled from the spec: the declaration of `NpsBeamSensorPrivate` is not
among the sources, so its members are typed as the data model of the
specification has them: the four ray and range counts are unsigned integers,
the range-count ratio is a double, `rendered` is the capture flag, next to the
camera and the scan message.  The structure holds them together with the
description elements read by `Load` and the inherited `noises` and
`lastMeasurementTime`. -/
structure NpsBeamSensor (K : Type) where
  horzElem : ScanAxis K
  vertElem : Option (ScanAxis K)
  rangeElem : RangeElem K
  noises : Option (Dbl K → Dbl K)
  horzRayCount : Nat
  vertRayCount : Nat
  horzRangeCount : Nat
  vertRangeCount : Nat
  rangeCountRatio : K
  rendered : Bool
  laserCam : Option (GpuLaser K)
  laserMsg : LaserScanStamped K
  lastMeasurementTime : Nat

/-- What `Init` finds in the rendering subsystem: whether the render path is
`NONE`, whether the world name is empty, and the camera that
`Scene::CreateGpuLaser` returns (if any). -/
structure RenderEnv (K : Type) where
  renderPathNone : Bool
  worldNameEmpty : Bool
  createdCam : Option (GpuLaser K)

/-! ## Accessors -/

section Accessors

variable {K : Type} [LinearOrderedField K] [FloorRing K]

/-- The accessor `NpsBeamSensor::AngleMin`. -/
def AngleMin (s : NpsBeamSensor K) : K := s.horzElem.min_angle

/-- The accessor `NpsBeamSensor::AngleMax`. -/
def AngleMax (s : NpsBeamSensor K) : K := s.horzElem.max_angle

/-- The accessor `NpsBeamSensor::RangeMin`. -/
def RangeMin (s : NpsBeamSensor K) : Dbl K := s.rangeElem.min

/-- The accessor `NpsBeamSensor::RangeMax`. -/
def RangeMax (s : NpsBeamSensor K) : Dbl K := s.rangeElem.max

/-- The accessor `NpsBeamSensor::RayCount`: the unsigned `samples` returned as `int`. -/
def RayCount (s : NpsBeamSensor K) : Int := toInt32 s.horzElem.samples

/-- The accessor `NpsBeamSensor::RangeCount`: `RayCount() * resolution`, converted to `int`. -/
def RangeCount (s : NpsBeamSensor K) : Int :=
  truncToInt ((RayCount s : K) * s.horzElem.resolution)

/-- The accessor `NpsBeamSensor::VerticalRayCount`. -/
def VerticalRayCount (s : NpsBeamSensor K) : Int :=
  match s.vertElem with
  | some v => toInt32 v.samples
  | none => 1

/-- The accessor `NpsBeamSensor::VerticalRangeCount`. -/
def VerticalRangeCount (s : NpsBeamSensor K) : Int :=
  match s.vertElem with
  | some v =>
    let rows : Int := truncToInt ((VerticalRayCount s : K) * v.resolution)
    if rows > 1 then rows else 1
  | none => 1

/-- The accessor `NpsBeamSensor::VerticalAngleMin`. -/
def VerticalAngleMin (s : NpsBeamSensor K) : K :=
  match s.vertElem with
  | some v => v.min_angle
  | none => 0

/-- The accessor `NpsBeamSensor::VerticalAngleMax`. -/
def VerticalAngleMax (s : NpsBeamSensor K) : K :=
  match s.vertElem with
  | some v => v.max_angle
  | none => 0

/-- The setter `NpsBeamSensor::SetVerticalAngleMin`: a no-op without a vertical element. -/
def SetVerticalAngleMin (s : NpsBeamSensor K) (angle : K) : NpsBeamSensor K :=
  { s with vertElem := s.vertElem.map (fun v => { v with min_angle := angle }) }

/-- The setter `NpsBeamSensor::SetVerticalAngleMax`: a no-op without a vertical element. -/
def SetVerticalAngleMax (s : NpsBeamSensor K) (angle : K) : NpsBeamSensor K :=
  { s with vertElem := s.vertElem.map (fun v => { v with max_angle := angle }) }

/-- The accessor `NpsBeamSensor::AngleResolution` (lines 426-430): the
difference of the bounds divided by `RangeCount() - 1`, with no test on the divisor. -/
def AngleResolution (s : NpsBeamSensor K) : Dbl K :=
  Dbl.divFinite (AngleMax s - AngleMin s) ((RangeCount s - 1 : Int) : K)

/-- The accessor `NpsBeamSensor::VerticalAngleResolution` (lines 501-505). -/
def VerticalAngleResolution (s : NpsBeamSensor K) : Dbl K :=
  Dbl.divFinite (VerticalAngleMax s - VerticalAngleMin s) ((VerticalRangeCount s - 1 : Int) : K)

/-- The query `NpsBeamSensor::Range` (lines 525-540).  `none` stands for the read
of `ranges(_index)` past the end of the sequence. -/
def Range (s : NpsBeamSensor K) (index : Int) : Option (Dbl K) :=
  if s.laserMsg.scan.ranges.length = 0 then some (Dbl.fin 0)
  else if index < 0 ∨ index > (s.laserMsg.scan.ranges.length : Int) then some (Dbl.fin 0)
  else s.laserMsg.scan.ranges[index.toNat]?

end Accessors

/-! ## Load and Init -/

section Lifecycle

variable {K : Type} [LinearOrderedField K] [FloorRing K]

/-- A freshly constructed (all-zero, empty) scan message. -/
def emptyMsg : LaserScanStamped K :=
  { time := 0,
    scan :=
      { world_pose := ⟨0, 0, 0, 0, 0, 0⟩, angle_min := 0, angle_max := 0,
        angle_step := Dbl.fin 0, count := 0, vertical_angle_min := 0,
        vertical_angle_max := 0, vertical_angle_step := Dbl.fin 0, vertical_count := 0,
        range_min := Dbl.fin 0, range_max := Dbl.fin 0, ranges := [], intensities := [] } }

/-- The constructor followed by `NpsBeamSensor::Load` (lines 87-126): reads the
description, stores the ray counts, throws when one of them is zero, then
stores the range counts and the noise model. -/
def Load (ray : RayElem K) : Except String (NpsBeamSensor K) :=
  let s0 : NpsBeamSensor K :=
    { horzElem := ray.horizontal, vertElem := ray.vertical, rangeElem := ray.range,
      noises := none, horzRayCount := 0, vertRayCount := 0, horzRangeCount := 0,
      vertRangeCount := 0, rangeCountRatio := 0, rendered := false, laserCam := none,
      laserMsg := emptyMsg, lastMeasurementTime := 0 }
  let s1 : NpsBeamSensor K :=
    { s0 with horzRayCount := toUInt32 (RayCount s0),
              vertRayCount := toUInt32 (VerticalRayCount s0) }
  if s1.horzRayCount = 0 ∨ s1.vertRayCount = 0 then
    Except.error "NpsBeamSensor: Image has 0 size!"
  else
    Except.ok
      { s1 with horzRangeCount := toUInt32 (RangeCount s1),
                vertRangeCount := toUInt32 (VerticalRangeCount s1),
                noises := ray.noise }

/-- The clamp of the requested horizontal field of view to `2 * M_PI`
(lines 183-184 of `Init`). -/
def clampHorzFOV (T : Trig K) (hfov : K) : K :=
  if hfov > 2 * T.pi then 2 * T.pi else hfov

/-- The camera count chosen by `Init` (lines 186-194) for the horizontal field
of view left by the clamp to `2 * M_PI`. -/
def selectCameraCount (hfov : K) : Nat :=
  if hfov > 2.8 then (if hfov > 5.6 then 3 else 2) else 1

/-- Lines 209-216 of `Init`: when the (wrapped) product of the ray counts is
below that of the range counts, each ray count is raised to its range count. -/
def raiseRays (horzRayCount vertRayCount horzRangeCount vertRangeCount : Nat) : Nat × Nat :=
  if (horzRayCount * vertRayCount) % 2 ^ 32 < (horzRangeCount * vertRangeCount) % 2 ^ 32 then
    (max horzRayCount horzRangeCount, max vertRayCount vertRangeCount)
  else (horzRayCount, vertRayCount)

/-- Conversion of a finite `double` to `unsigned int`. -/
def truncToUInt32 (x : K) : Nat := toUInt32 (truncToInt x)

/-- The outcome of lines 218-273 of `Init`: the two corrected fields of view,
the ray-count ratio and the two ray counts. -/
structure RayGeometry (K : Type) where
  cosHorzFOV : K
  cosVertFOV : K
  rayCountRatio : K
  horzRayCount : Nat
  vertRayCount : Nat

/-- The assignments of lines 228-238 and 256-266 of `Init`: one ray count is
recomputed from the other through the ray-count ratio. -/
def applyRatio (ratio : K) (horzRayCount vertRayCount : Nat) : Nat × Nat :=
  if (horzRayCount : K) / ratio > (vertRayCount : K) then
    (horzRayCount, truncToUInt32 ((horzRayCount : K) / ratio))
  else
    (truncToUInt32 ((vertRayCount : K) * ratio), vertRayCount)

/-- Lines 218-273 of `Init`: the aspect-ratio reconciliation.  `cam` carries the
fields of view set so far and the previous value of the ratio. -/
def reconcile (T : Trig K) (cam : GpuLaser K) (horzRayCount vertRayCount : Nat) :
    RayGeometry K :=
  if cam.isHorizontal then
    if vertRayCount > 1 then
      let chfov := 2 * T.atan (T.tan (cam.horzFOV / 2) / T.cos (cam.vertFOV / 2))
      let ratio := T.tan (chfov / 2) / T.tan (cam.vertFOV / 2)
      let counts := applyRatio ratio horzRayCount vertRayCount
      { cosHorzFOV := chfov, cosVertFOV := cam.vertFOV, rayCountRatio := ratio,
        horzRayCount := counts.1, vertRayCount := counts.2 }
    else
      { cosHorzFOV := cam.horzFOV, cosVertFOV := cam.vertFOV,
        rayCountRatio := cam.rayCountRatio,
        horzRayCount := horzRayCount, vertRayCount := vertRayCount }
  else
    if horzRayCount > 1 then
      let cvfov := 2 * T.atan (T.tan (cam.vertFOV / 2) / T.cos (cam.horzFOV / 2))
      let ratio := T.tan (cam.horzFOV / 2) / T.tan (cvfov / 2)
      let counts := applyRatio ratio horzRayCount vertRayCount
      { cosHorzFOV := cam.horzFOV, cosVertFOV := cvfov, rayCountRatio := ratio,
        horzRayCount := counts.1, vertRayCount := counts.2 }
    else
      { cosHorzFOV := cam.horzFOV, cosVertFOV := cam.vertFOV,
        rayCountRatio := cam.rayCountRatio,
        horzRayCount := horzRayCount, vertRayCount := vertRayCount }

/-- The function `NpsBeamSensor::Init` (lines 129-319), up to the configuration
of the camera: the early returns, then the resolution of the geometry (lines
158-273).  The calls into the camera and the scene of lines 276-305 are not
part of the embedding.  For an empty world name the source goes on to line 314
with no scene; the embedding returns the sensor as it is there, and every
statement about `Init` below is made for a named world. -/
def Init (T : Trig K) (env : RenderEnv K) (s : NpsBeamSensor K) : NpsBeamSensor K :=
  if env.renderPathNone then s
  else if env.worldNameEmpty then s
  else
    match env.createdCam with
    | none => { s with laserCam := none }
    | some cam0 =>
      -- lines 158-164
      let vertRangeCount := if s.vertRayCount = 1 then 1 else s.vertRangeCount
      let isHorizontal := decide (s.vertRayCount = 1)
      -- lines 166-167
      let rangeCountRatio : K := ((s.horzRangeCount / vertRangeCount : Nat) : K)
      -- lines 172-181
      let hfov0 := AngleMax s - AngleMin s
      let vfov0 := VerticalAngleMax s - VerticalAngleMin s
      let horzHalfAngle := (AngleMax s + AngleMin s) / 2
      let vertHalfAngle := (VerticalAngleMax s + VerticalAngleMin s) / 2
      -- lines 183-184
      let hfov1 := clampHorzFOV T hfov0
      -- lines 186-194
      let cameraCount := selectCameraCount hfov1
      -- lines 196-197
      let hfov := hfov1 / (cameraCount : K)
      let horzRayCount := s.horzRayCount / cameraCount
      -- lines 199-207
      let vfov := if vfov0 > T.pi / 2 then T.pi / 2 else vfov0
      let s1 :=
        if vfov0 > T.pi / 2 then
          SetVerticalAngleMax (SetVerticalAngleMin s (vertHalfAngle - vfov / 2))
            (vertHalfAngle + vfov / 2)
        else s
      -- lines 209-216
      let rays := raiseRays horzRayCount s.vertRayCount s.horzRangeCount vertRangeCount
      -- lines 218-273
      let cam1 : GpuLaser K :=
        { cam0 with isHorizontal := isHorizontal, nearClip := RangeMin s,
                    farClip := RangeMax s, horzFOV := hfov, vertFOV := vfov,
                    horzHalfAngle := horzHalfAngle, vertHalfAngle := vertHalfAngle,
                    cameraCount := cameraCount }
      let g := reconcile T cam1 rays.1 rays.2
      { s1 with
        vertRangeCount := vertRangeCount,
        rangeCountRatio := rangeCountRatio,
        horzRayCount := g.horzRayCount,
        vertRayCount := g.vertRayCount,
        laserCam := some { cam1 with cosHorzFOV := g.cosHorzFOV, cosVertFOV := g.cosVertFOV,
                                     rayCountRatio := g.rayCountRatio } }

end Lifecycle

/-! ## Render and UpdateImpl -/

section Capture

variable {K : Type} [LinearOrderedField K] [FloorRing K]

/-- The function `NpsBeamSensor::Render` (lines 555-564); `isActive`, `needsUpdate` and
`simTime` come from the scheduler and the scene. -/
def Render (s : NpsBeamSensor K) (isActive needsUpdate : Bool) (simTime : Nat) :
    NpsBeamSensor K :=
  if s.laserCam.isNone || !isActive || !needsUpdate then s
  else { s with lastMeasurementTime := simTime, rendered := true }

/-- The loop of lines 610-636 of `UpdateImpl`, from index `i` on: sample `i` is
processed and written at index `i` of both sequences.  `none` stands for a
write past the end of a sequence. -/
def storeSamples (noise : Option (Dbl K → Dbl K)) (rangeMin rangeMax : Dbl K) :
    Nat → List (Dbl K × Dbl K) → List (Dbl K) → List (Dbl K) →
    Option (List (Dbl K) × List (Dbl K))
  | _, [], ranges, intensities => some (ranges, intensities)
  | i, (range, intensity) :: rest, ranges, intensities =>
    if i < ranges.length ∧ i < intensities.length then
      storeSamples noise rangeMin rangeMax (i + 1) rest
        (ranges.set i (maskRange noise rangeMin rangeMax range))
        (intensities.set i intensity)
    else none

/-- The function `NpsBeamSensor::UpdateImpl` (lines 567-644).  `worldPose` is the
value of `pose + parentEntity->WorldPose()` and `data` the samples between
`LaserDataBegin()` and `LaserDataEnd()` after `PostRender()`.  The result is
the returned boolean and the new state; `none` stands for a write past the end
of the message's sequences. -/
def UpdateImpl (s : NpsBeamSensor K) (worldPose : Pose K) (data : List (Dbl K × Dbl K)) :
    Option (Bool × NpsBeamSensor K) :=
  if !s.rendered then some (false, s)
  else
    let scan := s.laserMsg.scan
    let numRays : Int := RayCount s * VerticalRayCount s
    let resize := decide ((scan.ranges.length : Int) ≠ numRays)
    let ranges0 := if resize then List.replicate numRays.toNat Dbl.nan else scan.ranges
    let intensities0 :=
      if resize then List.replicate numRays.toNat Dbl.nan else scan.intensities
    match storeSamples s.noises (RangeMin s) (RangeMax s) 0 data ranges0 intensities0 with
    | none => none
    | some (ranges, intensities) =>
      some (true,
        { s with
          rendered := false,
          laserMsg :=
            { time := s.lastMeasurementTime,
              scan :=
                { world_pose := worldPose,
                  angle_min := AngleMin s,
                  angle_max := AngleMax s,
                  angle_step := AngleResolution s,
                  count := toUInt32 (RayCount s),
                  vertical_angle_min := VerticalAngleMin s,
                  vertical_angle_max := VerticalAngleMax s,
                  vertical_angle_step := VerticalAngleResolution s,
                  vertical_count := toUInt32 (VerticalRayCount s),
                  range_min := RangeMin s,
                  range_max := RangeMax s,
                  ranges := ranges,
                  intensities := intensities } } })

end Capture

/-! ## Sample configurations -/

section Samples

variable (K : Type) [LinearOrderedField K] [FloorRing K]

/-- A camera as `Scene::CreateGpuLaser` hands it over: nothing configured yet. -/
def blankCam : GpuLaser K :=
  { horzFOV := 0, vertFOV := 0, horzHalfAngle := 0, vertHalfAngle := 0, cosHorzFOV := 0,
    cosVertFOV := 0, rayCountRatio := 0, nearClip := Dbl.fin 0, farClip := Dbl.fin 0,
    cameraCount := 1, isHorizontal := false }

/-- A rendering subsystem that is enabled, with a named world and a camera. -/
def goodEnv : RenderEnv K :=
  { renderPathNone := false, worldNameEmpty := false, createdCam := some (blankCam K) }

/-- A description with `h` by `v` samples, horizontal angles `hmin .. hmax`,
vertical angles `vmin .. vmax`, resolution 1 on both axes, ranges `1 .. 10` and
no noise. -/
def gridRay (h v : Nat) (hmin hmax vmin vmax : K) : RayElem K :=
  { horizontal := { samples := h, resolution := 1, min_angle := hmin, max_angle := hmax },
    vertical := some { samples := v, resolution := 1, min_angle := vmin, max_angle := vmax },
    range := { min := Dbl.fin 1, max := Dbl.fin 10 },
    noise := none }

/-- A planar description (no vertical element) with `h` samples of resolution
`res`, horizontal angles `0 .. hmax` and ranges `rmin .. rmax`. -/
def planarRay (h : Nat) (res hmax : K) (rmin rmax : Dbl K) (noise : Option (Dbl K → Dbl K)) :
    RayElem K :=
  { horizontal := { samples := h, resolution := res, min_angle := 0, max_angle := hmax },
    vertical := none,
    range := { min := rmin, max := rmax },
    noise := noise }

/-- The sensor that `Load` returns for the description `ray` when the four
counts it stores are `horz`, `vert`, `horzRange` and `vertRange`. -/
def sensorOf (ray : RayElem K) (horz vert horzRange vertRange : Nat) : NpsBeamSensor K :=
  { horzElem := ray.horizontal, vertElem := ray.vertical, rangeElem := ray.range,
    noises := ray.noise, horzRayCount := horz, vertRayCount := vert,
    horzRangeCount := horzRange, vertRangeCount := vertRange, rangeCountRatio := 0,
    rendered := false, laserCam := none, laserMsg := emptyMsg, lastMeasurementTime := 0 }

/-- A planar sensor with three rays in the state that follows a completed render;
`ranges` is the range sequence of the snapshot it holds. -/
def renderedSensor (noise : Option (Dbl K → Dbl K)) (ranges : List (Dbl K)) : NpsBeamSensor K :=
  { horzElem := { samples := 3, resolution := 1, min_angle := 0, max_angle := 1 },
    vertElem := none,
    rangeElem := { min := Dbl.fin 1, max := Dbl.fin 10 },
    noises := noise,
    horzRayCount := 3, vertRayCount := 1, horzRangeCount := 3, vertRangeCount := 1,
    rangeCountRatio := 3, rendered := true, laserCam := some (blankCam K),
    laserMsg := { (emptyMsg : LaserScanStamped K) with
      scan := { (emptyMsg : LaserScanStamped K).scan with
        ranges := ranges, intensities := ranges } },
    lastMeasurementTime := 7 }

/-- The sensor that `Load` returns for two planar samples of resolution 2 over
the angles `0 .. 1`: two rays, four range samples. -/
def doubledSensor : NpsBeamSensor K :=
  sensorOf K (planarRay K 2 2 1 (Dbl.fin 1) (Dbl.fin 10) none) 2 1 4 1

/-- The sensor that `Load` returns for one planar sample of resolution 1/2 over
the angles `0 .. 1`: one ray, no range sample. -/
def halfSensor : NpsBeamSensor K :=
  sensorOf K (planarRay K 1 (1 / 2) 1 (Dbl.fin 1) (Dbl.fin 10) none) 1 1 0 1

/-- Four raw samples of range 5 and intensity 0. -/
def fourSamples : List (Dbl K × Dbl K) :=
  [(Dbl.fin 5, Dbl.fin 0), (Dbl.fin 5, Dbl.fin 0), (Dbl.fin 5, Dbl.fin 0),
    (Dbl.fin 5, Dbl.fin 0)]

/-- The origin. -/
def zeroPose : Pose K := ⟨0, 0, 0, 0, 0, 0⟩

/-- The state left by `UpdateImpl` (the state itself if the update is undefined). -/
def afterUpdate {K : Type} [LinearOrderedField K] [FloorRing K] (s : NpsBeamSensor K)
    (pose : Pose K) (data : List (Dbl K × Dbl K)) : NpsBeamSensor K :=
  match UpdateImpl s pose data with
  | some (_, t) => t
  | none => s

end Samples

/-! ## Facts about doubles -/

section DblFacts

variable {K : Type} [LinearOrderedField K]

theorem dbl_ge_false_of_lt {a b : Dbl K} (h : Dbl.lt a b = true) : Dbl.ge a b = false := by
  cases a <;> cases b <;> simp_all [Dbl.lt, Dbl.ge, Dbl.le]

theorem dbl_le_false_of_lt {a b : Dbl K} (h : Dbl.lt a b = true) : Dbl.le b a = false := by
  cases a <;> cases b <;> simp_all [Dbl.lt, Dbl.le]

theorem dbl_isnan_false_of_lt_left {a b : Dbl K} (h : Dbl.lt a b = true) :
    Dbl.isnan a = false := by
  cases a <;> cases b <;> simp_all [Dbl.lt, Dbl.isnan]

theorem dbl_isnan_false_of_lt_right {a b : Dbl K} (h : Dbl.lt a b = true) :
    Dbl.isnan b = false := by
  cases a <;> cases b <;> simp_all [Dbl.lt, Dbl.isnan]

theorem dbl_le_of_lt {a b : Dbl K} (h : Dbl.lt a b = true) : Dbl.le a b = true := by
  cases a <;> cases b <;> simp_all [Dbl.lt, Dbl.le]
  exact le_of_lt h

theorem dbl_le_self {a : Dbl K} (h : Dbl.isnan a = false) : Dbl.le a a = true := by
  cases a <;> simp_all [Dbl.le, Dbl.isnan]

/-- A clamped value is NaN (exactly when the clamped argument is) or lies
between the two bounds. -/
theorem dbl_clamp_cases (v lo hi : Dbl K) (h : Dbl.lt lo hi = true) :
    (Dbl.isnan v = true ∧ Dbl.clamp v lo hi = Dbl.nan) ∨
    (Dbl.isnan v = false ∧ Dbl.isnan (Dbl.clamp v lo hi) = false ∧
      Dbl.le lo (Dbl.clamp v lo hi) = true ∧ Dbl.le (Dbl.clamp v lo hi) hi = true) := by
  cases lo <;> cases hi <;> simp [Dbl.lt] at h <;> cases v <;>
    simp [Dbl.clamp, Dbl.stdMin, Dbl.stdMax, Dbl.lt, Dbl.le, Dbl.isnan] <;>
    (try split_ifs) <;> (try simp_all [Dbl.lt, Dbl.le, Dbl.isnan]) <;> (try linarith)

end DblFacts

/-! ## The sample loop -/

section Loop

variable {K : Type} [LinearOrderedField K]

/-- Whenever the loop completes, it keeps both lengths, leaves every index
outside `[i, i + data.length)` alone, and stores at index `i + j` the masked
range and the raw intensity of sample `j`. -/
theorem storeSamples_spec (noise : Option (Dbl K → Dbl K)) (lo hi : Dbl K) :
    ∀ (data : List (Dbl K × Dbl K)) (i : Nat) (rs xs rs1 xs1 : List (Dbl K)),
      storeSamples noise lo hi i data rs xs = some (rs1, xs1) →
      rs1.length = rs.length ∧ xs1.length = xs.length ∧
      (data ≠ [] → i + data.length ≤ rs.length ∧ i + data.length ≤ xs.length) ∧
      (∀ j, j < i ∨ i + data.length ≤ j → rs1[j]? = rs[j]? ∧ xs1[j]? = xs[j]?) ∧
      (∀ j (hj : j < data.length),
        rs1[i + j]? = some (maskRange noise lo hi (data.get ⟨j, hj⟩).1) ∧
        xs1[i + j]? = some (data.get ⟨j, hj⟩).2) := by
  intro data
  induction data with
  | nil =>
    intro i rs xs rs1 xs1 h
    simp [storeSamples] at h
    obtain ⟨h1, h2⟩ := h
    subst h1; subst h2
    simp
  | cons d rest ih =>
    intro i rs xs rs1 xs1 h
    obtain ⟨r, inten⟩ := d
    simp only [storeSamples] at h
    split_ifs at h with hb
    obtain ⟨e1, e2, e3, e4, e5⟩ := ih (i + 1) _ _ rs1 xs1 h
    simp only [List.length_set] at e1 e2 e3
    refine ⟨e1, e2, ?_, ?_, ?_⟩
    · intro _
      simp only [List.length_cons]
      by_cases hr : rest = []
      · subst hr
        simp
        omega
      · have := e3 hr
        omega
    · intro j hj
      simp only [List.length_cons] at hj
      have hne : i ≠ j := by omega
      have := e4 j (by omega)
      simpa [List.getElem?_set, hne] using this
    · intro j hj
      cases j with
      | zero =>
        have := e4 i (Or.inl (Nat.lt_succ_self i))
        simp [List.getElem?_set, hb.1, hb.2] at this
        simpa using this
      | succ k =>
        have hk : k < rest.length := by simpa using hj
        have := e5 k hk
        have e : i + (k + 1) = i + 1 + k := by omega
        simpa [e] using this

/-- The loop completes as soon as the samples fit into both sequences. -/
theorem storeSamples_total (noise : Option (Dbl K → Dbl K)) (lo hi : Dbl K) :
    ∀ (data : List (Dbl K × Dbl K)) (i : Nat) (rs xs : List (Dbl K)),
      i + data.length ≤ rs.length → i + data.length ≤ xs.length →
      ∃ out, storeSamples noise lo hi i data rs xs = some out := by
  intro data
  induction data with
  | nil => intro i rs xs _ _; exact ⟨_, rfl⟩
  | cons d rest ih =>
    intro i rs xs h1 h2
    obtain ⟨r, inten⟩ := d
    simp only [List.length_cons] at h1 h2
    have hb : i < rs.length ∧ i < xs.length := ⟨by omega, by omega⟩
    simp only [storeSamples, hb, and_self, if_true]
    exact ih (i + 1) _ _ (by simp; omega) (by simp; omega)

end Loop

/-! ## Range masking -/

section Masking

variable {K : Type} [LinearOrderedField K]

theorem maskRange_ge (noise : Option (Dbl K → Dbl K)) {lo hi r : Dbl K}
    (h : Dbl.ge r hi = true) : maskRange noise lo hi r = Dbl.pinf := by
  simp [maskRange, h, Dbl.isnan]

theorem maskRange_le (noise : Option (Dbl K → Dbl K)) {lo hi r : Dbl K}
    (hlim : Dbl.lt lo hi = true) (h : Dbl.le r lo = true) :
    maskRange noise lo hi r = Dbl.ninf := by
  have hge : Dbl.ge r hi = false := by
    cases r <;> cases lo <;> cases hi <;> simp_all [Dbl.lt, Dbl.le, Dbl.ge]
    linarith
  simp [maskRange, h, hge, Dbl.isnan]

theorem maskRange_inside {lo hi r : Dbl K} (h1 : Dbl.lt lo r = true)
    (h2 : Dbl.lt r hi = true) : maskRange none lo hi r = r := by
  simp [maskRange, dbl_ge_false_of_lt h2, dbl_le_false_of_lt h1,
    dbl_isnan_false_of_lt_left h2]

theorem maskRange_noise {lo hi r : Dbl K} (f : Dbl K → Dbl K) (h1 : Dbl.lt lo r = true)
    (h2 : Dbl.lt r hi = true) :
    Dbl.le lo (maskRange (some f) lo hi r) = true ∧
    Dbl.le (maskRange (some f) lo hi r) hi = true ∧
    (Dbl.isnan (f r) = true → maskRange (some f) lo hi r = hi) ∧
    (Dbl.isnan (f r) = false → maskRange (some f) lo hi r = Dbl.clamp (f r) lo hi) := by
  have hlim : Dbl.lt lo hi = true := by
    cases r <;> cases lo <;> cases hi <;> simp_all [Dbl.lt]
    exact lt_trans h1 h2
  have hm : maskRange (some f) lo hi r =
      if Dbl.isnan (Dbl.clamp (f r) lo hi) then hi else Dbl.clamp (f r) lo hi := by
    simp [maskRange, dbl_ge_false_of_lt h2, dbl_le_false_of_lt h1]
  rcases dbl_clamp_cases (f r) lo hi hlim with ⟨hn, hc⟩ | ⟨hn, hc, hlo, hhi⟩
  · have hnan : Dbl.isnan (Dbl.nan : Dbl K) = true := rfl
    rw [hm, hc]
    simp [hnan, hn, dbl_le_of_lt hlim, dbl_le_self (dbl_isnan_false_of_lt_right hlim)]
  · rw [hm]
    simp [hc, hlo, hhi, hn]

theorem maskRange_not_nan (noise : Option (Dbl K → Dbl K)) {lo hi : Dbl K} (r : Dbl K)
    (hlim : Dbl.lt lo hi = true) : Dbl.isnan (maskRange noise lo hi r) = false := by
  have hhi := dbl_isnan_false_of_lt_right hlim
  have key : ∀ x : Dbl K, Dbl.isnan (if Dbl.isnan x = true then hi else x) = false := by
    intro x
    by_cases h : Dbl.isnan x = true
    · simp [h, hhi]
    · simp [h]
  exact key _

end Masking

/-! ## The update step -/

section Update

variable {K : Type} [LinearOrderedField K] [FloorRing K]

/-- Without a completed render, `UpdateImpl` returns false and changes nothing. -/
theorem UpdateImpl_idle (s : NpsBeamSensor K) (pose : Pose K) (data : List (Dbl K × Dbl K))
    (h : s.rendered = false) : UpdateImpl s pose data = some (false, s) := by
  simp [UpdateImpl, h]

/-- What a completed `UpdateImpl` leaves behind after a render. -/
theorem UpdateImpl_stored (s t : NpsBeamSensor K) (pose : Pose K)
    (data : List (Dbl K × Dbl K)) (b : Bool) (hr : s.rendered = true)
    (hrun : UpdateImpl s pose data = some (b, t)) :
    b = true ∧ t.rendered = false ∧ t.laserMsg.time = s.lastMeasurementTime ∧
    t.laserMsg.scan.ranges.length = (RayCount s * VerticalRayCount s).toNat ∧
    (data ≠ [] → data.length ≤ t.laserMsg.scan.ranges.length) ∧
    (∀ j (hj : j < data.length),
      t.laserMsg.scan.ranges[j]? =
        some (maskRange s.noises (RangeMin s) (RangeMax s) (data.get ⟨j, hj⟩).1) ∧
      t.laserMsg.scan.intensities[j]? = some (data.get ⟨j, hj⟩).2) := by
  simp only [UpdateImpl, hr, Bool.not_true, Bool.false_eq_true, if_false] at hrun
  split at hrun
  · exact absurd hrun (by simp)
  · rename_i rs xs hloop
    simp only [Option.some.injEq, Prod.mk.injEq] at hrun
    obtain ⟨hb, ht⟩ := hrun
    obtain ⟨e1, _, e3, _, e5⟩ := storeSamples_spec _ _ _ _ _ _ _ _ _ hloop
    subst ht
    refine ⟨hb.symm, rfl, rfl, ?_, ?_, ?_⟩
    · show rs.length = _
      rw [e1]
      split_ifs with hz
      · simp
      · simp only [ne_eq, decide_eq_true_eq, not_not] at hz
        omega
    · intro hne
      show data.length ≤ rs.length
      have := (e3 hne).1
      omega
    · intro j hj
      have := e5 j hj
      simpa using this

/-- After a render, `UpdateImpl` completes and returns true as soon as the
samples fit into the sequences of the message. -/
theorem UpdateImpl_total (s : NpsBeamSensor K) (pose : Pose K) (data : List (Dbl K × Dbl K))
    (hr : s.rendered = true)
    (hfit : data.length ≤ (RayCount s * VerticalRayCount s).toNat)
    (hlen : s.laserMsg.scan.intensities.length = s.laserMsg.scan.ranges.length) :
    UpdateImpl s pose data = some (true, afterUpdate s pose data) := by
  have hloop : ∃ out, storeSamples s.noises (RangeMin s) (RangeMax s) 0 data
      (if decide ((s.laserMsg.scan.ranges.length : Int) ≠ RayCount s * VerticalRayCount s)
        then List.replicate (RayCount s * VerticalRayCount s).toNat Dbl.nan
        else s.laserMsg.scan.ranges)
      (if decide ((s.laserMsg.scan.ranges.length : Int) ≠ RayCount s * VerticalRayCount s)
        then List.replicate (RayCount s * VerticalRayCount s).toNat Dbl.nan
        else s.laserMsg.scan.intensities) = some out := by
    apply storeSamples_total
    · split_ifs with hz
      · simpa using hfit
      · simp only [ne_eq, decide_eq_true_eq, not_not] at hz
        omega
    · split_ifs with hz
      · simpa using hfit
      · simp only [ne_eq, decide_eq_true_eq, not_not] at hz
        omega
  obtain ⟨⟨rs, xs⟩, hout⟩ := hloop
  simp only [afterUpdate, UpdateImpl, hr, Bool.not_true, Bool.false_eq_true, if_false, hout]

end Update

/-! ## The range query -/

section RangeQuery

variable {K : Type} [LinearOrderedField K]

/-- The three cases of `Range` on a snapshot holding `n` ranges: an index below
0 or above `n` gives 0, an index in `[0, n)` gives the stored range, and the
index `n` itself passes the guard when `n > 0`. -/
theorem Range_cases (s : NpsBeamSensor K) (index : Int) :
    (index < 0 ∨ (s.laserMsg.scan.ranges.length : Int) < index →
      Range s index = some (Dbl.fin 0)) ∧
    (0 ≤ index → index < (s.laserMsg.scan.ranges.length : Int) →
      Range s index = s.laserMsg.scan.ranges[index.toNat]? ∧
      (Range s index).isSome = true) ∧
    (0 < s.laserMsg.scan.ranges.length → index = (s.laserMsg.scan.ranges.length : Int) →
      Range s index = none) := by
  refine ⟨fun h => ?_, fun h0 h1 => ?_, fun h0 h1 => ?_⟩
  · unfold Range
    split_ifs <;> rfl
  · have hlen : s.laserMsg.scan.ranges.length ≠ 0 := by omega
    have hg : ¬ (index < 0 ∨ index > (s.laserMsg.scan.ranges.length : Int)) := by omega
    have hlt : index.toNat < s.laserMsg.scan.ranges.length := by omega
    unfold Range
    rw [if_neg hlen, if_neg hg]
    exact ⟨rfl, by simp [hlt]⟩
  · have hlen : s.laserMsg.scan.ranges.length ≠ 0 := by omega
    have hg : ¬ (index < 0 ∨ index > (s.laserMsg.scan.ranges.length : Int)) := by omega
    unfold Range
    rw [if_neg hlen, if_neg hg, List.getElem?_eq_none]
    omega

/-- C2 (the code at the failing input): on a snapshot holding the single range
1.0, `Range(1)` is not answered with 0: the index passes the guard
`_index > ranges_size()` and the range sequence is read past its end. -/
theorem Range_at_size_reads_past_end :
    Range (renderedSensor ℚ none [Dbl.fin 1]) 1 = none ∧
    Range (renderedSensor ℚ none [Dbl.fin 1]) 1 ≠ some (Dbl.fin 0) := by
  have h := (Range_cases (renderedSensor ℚ none [Dbl.fin 1]) 1).2.2 (by decide) rfl
  exact ⟨h, by rw [h]; simp⟩

end RangeQuery

/-! ## Integer conversions -/

theorem toUInt32_one : toUInt32 1 = 1 := by decide

/-! ## Load and Init -/

section InitFacts

variable {K : Type} [LinearOrderedField K] [FloorRing K]

/-- With rendering enabled, a named world and a camera, `Init` resolves the
geometry: the camera it stores carries the clip distances, the camera count,
the per-camera horizontal field of view and the clamped vertical one. -/
theorem Init_cam (T : Trig K) (env : RenderEnv K) (s : NpsBeamSensor K) (cam0 : GpuLaser K)
    (hpath : env.renderPathNone = false) (hworld : env.worldNameEmpty = false)
    (hcam : env.createdCam = some cam0) :
    ∃ cam, (Init T env s).laserCam = some cam ∧
      cam.nearClip = RangeMin s ∧ cam.farClip = RangeMax s ∧
      cam.cameraCount = selectCameraCount (clampHorzFOV T (AngleMax s - AngleMin s)) ∧
      cam.horzFOV = clampHorzFOV T (AngleMax s - AngleMin s) /
        (selectCameraCount (clampHorzFOV T (AngleMax s - AngleMin s)) : K) ∧
      cam.vertFOV = (if VerticalAngleMax s - VerticalAngleMin s > T.pi / 2 then T.pi / 2
        else VerticalAngleMax s - VerticalAngleMin s) ∧
      cam.vertHalfAngle = (VerticalAngleMax s + VerticalAngleMin s) / 2 ∧
      cam.isHorizontal = decide (s.vertRayCount = 1) := by
  simp only [Init, hpath, hworld, hcam, Bool.false_eq_true, if_false]
  exact ⟨_, rfl, rfl, rfl, rfl, rfl, rfl, rfl, rfl⟩

/-- The vertical element that `Init` leaves: rewritten around the half angle
when the vertical field of view exceeds `M_PI / 2`, untouched otherwise. -/
theorem Init_vertElem (T : Trig K) (env : RenderEnv K) (s : NpsBeamSensor K) (cam0 : GpuLaser K)
    (hpath : env.renderPathNone = false) (hworld : env.worldNameEmpty = false)
    (hcam : env.createdCam = some cam0) :
    (Init T env s).vertElem =
      if VerticalAngleMax s - VerticalAngleMin s > T.pi / 2 then
        s.vertElem.map (fun v =>
          { v with
            min_angle := (VerticalAngleMax s + VerticalAngleMin s) / 2 - T.pi / 2 / 2,
            max_angle := (VerticalAngleMax s + VerticalAngleMin s) / 2 + T.pi / 2 / 2 })
      else s.vertElem := by
  simp only [Init, hpath, hworld, hcam, Bool.false_eq_true, if_false]
  split_ifs with hv
  · cases hve : s.vertElem <;> simp [SetVerticalAngleMax, SetVerticalAngleMin, hve]
  · rfl

end InitFacts

theorem selectCameraCount_pos {K : Type} [LinearOrderedField K] (h : K) :
    1 ≤ selectCameraCount h := by
  unfold selectCameraCount
  split_ifs <;> decide

section LoadSamples

variable {K : Type} [LinearOrderedField K] [FloorRing K]

theorem truncToInt_intCast (z : Int) : truncToInt (z : K) = z := by
  unfold truncToInt
  split_ifs
  · exact Int.floor_intCast z
  · exact Int.ceil_intCast z

theorem truncToInt_natCast (n : Nat) : truncToInt (n : K) = n := by
  have h := truncToInt_intCast (K := K) (n : Int)
  simpa using h

theorem toInt32_small (n : Nat) (h : n < 2 ^ 31) : toInt32 n = n := by
  unfold toInt32
  have h1 : n % 2 ^ 32 = n := Nat.mod_eq_of_lt (by omega)
  rw [h1, if_pos h]

theorem toUInt32_small (n : Nat) (h : n < 2 ^ 31) : toUInt32 (n : Int) = n := by
  unfold toUInt32
  omega

/-- What `Load` returns for a planar description of resolution 1. -/
theorem Load_planarRay (n : Nat) (h0 : 0 < n) (h1 : n < 2 ^ 31) (hmax : K)
    (rmin rmax : Dbl K) (noise : Option (Dbl K → Dbl K)) :
    Load (planarRay K n 1 hmax rmin rmax noise) =
      Except.ok (sensorOf K (planarRay K n 1 hmax rmin rmax noise) n 1 n 1) := by
  have hn : ¬ n = 0 := by omega
  simp [Load, RayCount, VerticalRayCount, RangeCount, VerticalRangeCount, planarRay, sensorOf,
    toInt32_small n h1, toUInt32_small n h1, truncToInt_natCast, toUInt32_one, hn]

/-- What `Load` returns for a grid description (resolution 1 on both axes). -/
theorem Load_gridRay (h v : Nat) (h0 : 0 < h) (h1 : h < 2 ^ 31) (v0 : 0 < v) (v1 : v < 2 ^ 31)
    (hmin hmax vmin vmax : K) :
    Load (gridRay K h v hmin hmax vmin vmax) =
      Except.ok (sensorOf K (gridRay K h v hmin hmax vmin vmax) h v h v) := by
  have hn : ¬ h = 0 := by omega
  have vn : ¬ v = 0 := by omega
  have hrows : toUInt32 (if 1 < v then (v : Int) else 1) = v := by
    split_ifs with hv
    · exact toUInt32_small v v1
    · have hv1 : v = 1 := by omega
      rw [hv1]
      rfl
  simp [Load, RayCount, VerticalRayCount, RangeCount, VerticalRangeCount, gridRay, sensorOf,
    toInt32_small h h1, toUInt32_small h h1, toInt32_small v v1, toUInt32_small v v1,
    truncToInt_natCast, hn, vn, hrows]

end LoadSamples

section InitMore

variable {K : Type} [LinearOrderedField K] [FloorRing K]

/-- The function `Init` never touches the range element. -/
theorem Init_rangeElem (T : Trig K) (env : RenderEnv K) (s : NpsBeamSensor K) :
    (Init T env s).rangeElem = s.rangeElem := by
  unfold Init
  by_cases h1 : env.renderPathNone = true
  · simp only [h1, if_true]
  by_cases h2 : env.worldNameEmpty = true
  · simp only [h1, h2, if_true, if_false, Bool.false_eq_true]
  cases hc : env.createdCam with
  | none => simp only [h1, h2, if_false, Bool.false_eq_true]
  | some cam0 =>
    simp only [h1, h2, if_false, Bool.false_eq_true]
    split_ifs <;> rfl

/-- The ray counts and the ratio that `Init` stores are those of `reconcile`,
run on the camera configured by lines 158-207 and on the ray counts left by
lines 196-216. -/
theorem Init_reconciled (T : Trig K) (env : RenderEnv K) (s : NpsBeamSensor K)
    (cam0 : GpuLaser K) (hpath : env.renderPathNone = false)
    (hworld : env.worldNameEmpty = false) (hcam : env.createdCam = some cam0) :
    ∃ (cam1 cam : GpuLaser K) (rays : Nat × Nat),
      cam1.horzFOV = clampHorzFOV T (AngleMax s - AngleMin s) /
        (selectCameraCount (clampHorzFOV T (AngleMax s - AngleMin s)) : K) ∧
      cam1.vertFOV = (if VerticalAngleMax s - VerticalAngleMin s > T.pi / 2 then T.pi / 2
        else VerticalAngleMax s - VerticalAngleMin s) ∧
      cam1.isHorizontal = decide (s.vertRayCount = 1) ∧
      rays = raiseRays
        (s.horzRayCount / selectCameraCount (clampHorzFOV T (AngleMax s - AngleMin s)))
        s.vertRayCount s.horzRangeCount (if s.vertRayCount = 1 then 1 else s.vertRangeCount) ∧
      (Init T env s).horzRayCount = (reconcile T cam1 rays.1 rays.2).horzRayCount ∧
      (Init T env s).vertRayCount = (reconcile T cam1 rays.1 rays.2).vertRayCount ∧
      (Init T env s).laserCam = some cam ∧
      cam.horzFOV = cam1.horzFOV ∧ cam.vertFOV = cam1.vertFOV ∧
      cam.cosVertFOV = (reconcile T cam1 rays.1 rays.2).cosVertFOV ∧
      cam.cosHorzFOV = (reconcile T cam1 rays.1 rays.2).cosHorzFOV ∧
      cam.rayCountRatio = (reconcile T cam1 rays.1 rays.2).rayCountRatio := by
  simp only [Init, hpath, hworld, hcam, Bool.false_eq_true, if_false]
  exact ⟨_, _, _, rfl, rfl, rfl, rfl, rfl, rfl, rfl, rfl, rfl, rfl, rfl, rfl⟩

/-- When `reconcile` leaves more than one ray on both axes (the vertical count
handed to it being 1 for a horizontal camera), it has taken the branch of lines
248-267: the ratio is `tan(horzFOV/2) / tan(cosVertFOV/2)` for the corrected
vertical field of view `cosVertFOV = 2 atan(tan(vertFOV/2) / cos(horzFOV/2))`. -/
theorem reconcile_ratio (T : Trig K) (cam : GpuLaser K) (h v : Nat)
    (hflat : cam.isHorizontal = true → v ≤ 1)
    (hh : 1 < (reconcile T cam h v).horzRayCount)
    (hv : 1 < (reconcile T cam h v).vertRayCount) :
    (reconcile T cam h v).cosVertFOV =
      2 * T.atan (T.tan (cam.vertFOV / 2) / T.cos (cam.horzFOV / 2)) ∧
    (reconcile T cam h v).rayCountRatio =
      T.tan (cam.horzFOV / 2) / T.tan ((reconcile T cam h v).cosVertFOV / 2) := by
  unfold reconcile at hh hv ⊢
  cases hc : cam.isHorizontal with
  | true =>
    have hv1 : ¬ v > 1 := not_lt.mpr (hflat hc)
    simp only [hc, if_true, hv1, if_false] at hv
  | false =>
    by_cases hgt : h > 1
    · simp only [Bool.false_eq_true, if_false, hgt, if_true, and_self]
    · simp only [hc, Bool.false_eq_true, if_false, hgt] at hh

end InitMore

/-- Against the real `M_PI`, a requested field of view of at most 6 radians is
not clamped. -/
theorem clampHorzFOV_real (h : ℝ) (hh : h ≤ 6) :
    clampHorzFOV (Trig.mk Real.pi Real.tan Real.arctan Real.cos) h = h := by
  unfold clampHorzFOV
  have := Real.pi_gt_three
  rw [if_neg]
  simp only [gt_iff_lt, not_lt]
  linarith

/-! ## A two-by-two grid over the reals -/

theorem cos_half_bounds : 7 / 8 ≤ Real.cos (1 / 2) ∧ Real.cos (1 / 2) < 1 := by
  constructor
  · have h := @Real.one_sub_sq_div_two_le_cos (1 / 2)
    norm_num at h ⊢
    linarith
  · have hpi := Real.pi_gt_three
    have h := Real.cos_lt_cos_of_nonneg_of_le_pi_div_two (le_refl (0 : ℝ))
      (show (1 / 2 : ℝ) ≤ Real.pi / 2 by linarith) (by norm_num)
    simpa using h

theorem tan_half_pos : 0 < Real.tan (1 / 2) := by
  have hpi := Real.pi_gt_three
  exact Real.tan_pos_of_pos_of_lt_pi_div_two (by norm_num) (by linarith)

/-- The ratio computed by lines 251-254 for both fields of view equal to 1. -/
theorem ratio_unit_fov :
    Real.tan (1 / 2) / Real.tan (2 * Real.arctan (Real.tan (1 / 2) / Real.cos (1 / 2)) / 2)
      = Real.cos (1 / 2) := by
  have ht := tan_half_pos
  have hc := cos_half_bounds.1
  rw [mul_div_cancel_left₀ _ (two_ne_zero), Real.tan_arctan]
  field_simp

theorem applyRatio_cos_half : applyRatio (Real.cos (1 / 2)) 2 2 = (2, 2) := by
  obtain ⟨hlo, hhi⟩ := cos_half_bounds
  have hpos : 0 < Real.cos (1 / 2) := by linarith
  have h2 : (2 : ℝ) < 2 / Real.cos (1 / 2) := by
    rw [lt_div_iff₀ hpos]
    linarith
  have h3 : 2 / Real.cos (1 / 2) < (3 : ℝ) := by
    rw [div_lt_iff₀ hpos]
    linarith
  have hfloor : Int.floor (2 / Real.cos (1 / 2)) = 2 := by
    rw [Int.floor_eq_iff]
    constructor
    · exact_mod_cast le_of_lt h2
    · norm_num
      linarith
  have hgt : ((2 : Nat) : ℝ) / Real.cos (1 / 2) > ((2 : Nat) : ℝ) := by
    exact_mod_cast h2
  have hnn : (0 : ℝ) ≤ ((2 : Nat) : ℝ) / Real.cos (1 / 2) := by
    have : (0 : ℝ) ≤ 2 / Real.cos (1 / 2) := by linarith
    exact_mod_cast this
  have hcast : ((2 : Nat) : ℝ) / Real.cos (1 / 2) = 2 / Real.cos (1 / 2) := by norm_num
  rw [applyRatio, if_pos hgt, truncToUInt32, truncToInt, if_pos hnn, hcast, hfloor]
  rfl

/-- The function `reconcile` on two by two rays with both fields of view equal to 1. -/
theorem reconcile_unit_fov (cam : GpuLaser ℝ) (hH : cam.isHorizontal = false)
    (h1 : cam.horzFOV = 1) (h2 : cam.vertFOV = 1) :
    (reconcile (Trig.mk Real.pi Real.tan Real.arctan Real.cos) cam 2 2).horzRayCount = 2 ∧
    (reconcile (Trig.mk Real.pi Real.tan Real.arctan Real.cos) cam 2 2).vertRayCount = 2 ∧
    (reconcile (Trig.mk Real.pi Real.tan Real.arctan Real.cos) cam 2 2).rayCountRatio
      = Real.cos (1 / 2) := by
  have h21 : (2 : Nat) > 1 := by decide
  simp only [reconcile, hH, h1, h2, Bool.false_eq_true, if_false, h21, if_true,
    ratio_unit_fov, applyRatio_cos_half, and_self]

/-- The geometry that `Init` resolves over the reals for two by two samples with
horizontal and vertical angles `0 .. 1`. -/
theorem Init_unit_grid :
    (Init (Trig.mk Real.pi Real.tan Real.arctan Real.cos) (goodEnv ℝ)
      (sensorOf ℝ (gridRay ℝ 2 2 0 1 0 1) 2 2 2 2)).horzRayCount = 2 ∧
    (Init (Trig.mk Real.pi Real.tan Real.arctan Real.cos) (goodEnv ℝ)
      (sensorOf ℝ (gridRay ℝ 2 2 0 1 0 1) 2 2 2 2)).vertRayCount = 2 ∧
    ∃ cam, (Init (Trig.mk Real.pi Real.tan Real.arctan Real.cos) (goodEnv ℝ)
      (sensorOf ℝ (gridRay ℝ 2 2 0 1 0 1) 2 2 2 2)).laserCam = some cam ∧
      cam.horzFOV = 1 ∧ cam.vertFOV = 1 ∧ cam.rayCountRatio = Real.cos (1 / 2) := by
  obtain ⟨cam1, cam, rays, e1, e2, e3, e4, e5, e6, e7, e8, e9, _, _, e12⟩ :=
    Init_reconciled (Trig.mk Real.pi Real.tan Real.arctan Real.cos) (goodEnv ℝ)
      (sensorOf ℝ (gridRay ℝ 2 2 0 1 0 1) 2 2 2 2) (blankCam ℝ) rfl rfl rfl
  have hpi := Real.pi_gt_three
  have hh : AngleMax (sensorOf ℝ (gridRay ℝ 2 2 0 1 0 1) 2 2 2 2) -
      AngleMin (sensorOf ℝ (gridRay ℝ 2 2 0 1 0 1) 2 2 2 2) = 1 := by
    simp [AngleMax, AngleMin, sensorOf, gridRay]
  have hvv : VerticalAngleMax (sensorOf ℝ (gridRay ℝ 2 2 0 1 0 1) 2 2 2 2) -
      VerticalAngleMin (sensorOf ℝ (gridRay ℝ 2 2 0 1 0 1) 2 2 2 2) = 1 := by
    simp [VerticalAngleMax, VerticalAngleMin, sensorOf, gridRay]
  have hsel : selectCameraCount (1 : ℝ) = 1 := by
    rw [selectCameraCount, if_neg (by norm_num)]
  rw [hh, clampHorzFOV_real 1 (by norm_num), hsel] at e1 e4
  rw [hvv, if_neg (by simp only [gt_iff_lt, not_lt]; linarith)] at e2
  have hrays : rays = (2, 2) := by
    rw [e4]
    simp [raiseRays, sensorOf]
  have hflat : cam1.isHorizontal = false := by
    rw [e3]
    simp [sensorOf]
  have hone : cam1.horzFOV = 1 := by
    rw [e1]
    norm_num
  obtain ⟨r1, r2, r3⟩ := reconcile_unit_fov cam1 hflat hone e2
  rw [hrays] at e5 e6 e12
  exact ⟨e5.trans r1, e6.trans r2, cam, e7, e8.trans hone, e9.trans e2, e12.trans r3⟩

/-! ## Range counts and message bounds -/

section Counts

variable {K : Type} [LinearOrderedField K] [FloorRing K]

/-- The vertical range count is clamped: it is at least 1 for every sensor. -/
theorem VerticalRangeCount_pos (s : NpsBeamSensor K) : 1 ≤ VerticalRangeCount s := by
  unfold VerticalRangeCount
  cases s.vertElem with
  | none => exact le_refl 1
  | some v =>
    simp only
    split_ifs with h
    · exact le_of_lt h
    · exact le_refl 1

/-- The horizontal range count is the truncated product, with no clamp: it is
below 1 as soon as `samples * resolution` is below 1. -/
theorem RangeCount_lt_one (s : NpsBeamSensor K)
    (h : (RayCount s : K) * s.horzElem.resolution < 1) : RangeCount s < 1 := by
  unfold RangeCount truncToInt
  split_ifs with h0
  · have hfl : Int.floor ((RayCount s : K) * s.horzElem.resolution) < 1 := by
      rw [Int.floor_lt]
      exact_mod_cast h
    exact hfl
  · have hneg : (RayCount s : K) * s.horzElem.resolution < 0 := not_le.mp h0
    have hc : Int.ceil ((RayCount s : K) * s.horzElem.resolution) ≤ 0 := by
      rw [Int.ceil_le]
      exact_mod_cast le_of_lt hneg
    omega

/-- After a render, `UpdateImpl` is undefined (a write past the end of the
message) as soon as the depth source yields more samples than
`RayCount() * VerticalRayCount()`. -/
theorem UpdateImpl_overrun (s : NpsBeamSensor K) (pose : Pose K)
    (data : List (Dbl K × Dbl K)) (hr : s.rendered = true)
    (hlong : (RayCount s * VerticalRayCount s).toNat < data.length) :
    UpdateImpl s pose data = none := by
  cases hrun : UpdateImpl s pose data with
  | none => rfl
  | some out =>
    obtain ⟨b, t⟩ := out
    obtain ⟨_, _, _, hlen, hfit, _⟩ := UpdateImpl_stored s t pose data b hr hrun
    have hne : data ≠ [] := by
      intro he
      rw [he] at hlong
      simp at hlong
    have := hfit hne
    omega

/-- The function `reconcile` leaves the ray counts of a horizontal camera with
one vertical ray as they are. -/
theorem reconcile_flat (T : Trig K) (cam : GpuLaser K) (h : Nat)
    (hH : cam.isHorizontal = true) :
    (reconcile T cam h 1).horzRayCount = h ∧ (reconcile T cam h 1).vertRayCount = 1 := by
  have h11 : ¬ (1 : Nat) > 1 := by decide
  simp only [reconcile, hH, if_true, h11, if_false, and_self]

/-- The function `Init` never touches the horizontal element. -/
theorem Init_horzElem (T : Trig K) (env : RenderEnv K) (s : NpsBeamSensor K) :
    (Init T env s).horzElem = s.horzElem := by
  unfold Init
  by_cases h1 : env.renderPathNone = true
  · simp only [h1, if_true]
  by_cases h2 : env.worldNameEmpty = true
  · simp only [h1, h2, if_true, if_false, Bool.false_eq_true]
  cases hc : env.createdCam with
  | none => simp only [h1, h2, if_false, Bool.false_eq_true]
  | some cam0 =>
    simp only [h1, h2, if_false, Bool.false_eq_true]
    split_ifs <;> rfl

/-- What `Load` returns for two planar samples of resolution 2. -/
theorem Load_doubled :
    Load (planarRay K 2 2 1 (Dbl.fin 1) (Dbl.fin 10) none) = Except.ok (doubledSensor K) := by
  have h4 : ((toInt32 2 : Int) : K) * 2 = ((4 : Nat) : K) := by
    rw [toInt32_small 2 (by decide)]
    norm_num
  have hcount : RangeCount (sensorOf K (planarRay K 2 2 1 (Dbl.fin 1) (Dbl.fin 10) none)
      2 1 0 0) = 4 := by
    simp only [RangeCount, RayCount, sensorOf, planarRay, h4, truncToInt_natCast]
    rfl
  simp only [RangeCount, RayCount, sensorOf, planarRay] at hcount
  simp only [Load, RayCount, VerticalRayCount, RangeCount, VerticalRangeCount, planarRay,
    doubledSensor, sensorOf, hcount]
  rfl

/-- After a render, when the samples fit into the message, `UpdateImpl`
completes, both sequences of the new snapshot have the length
`RayCount() * VerticalRayCount()`, and sample `j` is found at index `j`: its
masked range and its raw intensity. -/
theorem UpdateImpl_in_bounds (s : NpsBeamSensor K) (pose : Pose K)
    (data : List (Dbl K × Dbl K)) (hr : s.rendered = true)
    (hfit : data.length ≤ (RayCount s * VerticalRayCount s).toNat)
    (hlen : s.laserMsg.scan.intensities.length = s.laserMsg.scan.ranges.length) :
    ∃ t, UpdateImpl s pose data = some (true, t) ∧
      t.laserMsg.scan.ranges.length = (RayCount s * VerticalRayCount s).toNat ∧
      t.laserMsg.scan.intensities.length = (RayCount s * VerticalRayCount s).toNat ∧
      ∀ j (hj : j < data.length),
        j < t.laserMsg.scan.ranges.length ∧
        t.laserMsg.scan.ranges[j]? =
          some (maskRange s.noises (RangeMin s) (RangeMax s) (data.get ⟨j, hj⟩).1) ∧
        t.laserMsg.scan.intensities[j]? = some (data.get ⟨j, hj⟩).2 := by
  have hrun := UpdateImpl_total s pose data hr hfit hlen
  obtain ⟨_, _, _, hl, _, hst⟩ := UpdateImpl_stored s _ pose data true hr hrun
  refine ⟨_, hrun, hl, ?_, fun j hj => ⟨by omega, hst j hj⟩⟩
  have hrun2 := hrun
  simp only [UpdateImpl, hr, Bool.not_true, Bool.false_eq_true, if_false] at hrun2
  split at hrun2
  · exact absurd hrun2 (by simp)
  · rename_i rs xs hloop
    simp only [Option.some.injEq, Prod.mk.injEq, true_and] at hrun2
    obtain ⟨_, e2, _⟩ := storeSamples_spec _ _ _ _ _ _ _ _ _ hloop
    rw [← hrun2]
    show xs.length = _
    rw [e2]
    split_ifs with hz
    · simp
    · simp only [ne_eq, decide_eq_true_eq, not_not] at hz
      omega

/-- What `Load` returns for one planar sample of resolution 1/2. -/
theorem Load_half :
    Load (planarRay ℚ 1 (1 / 2) 1 (Dbl.fin 1) (Dbl.fin 10) none) =
      Except.ok (halfSensor ℚ) := by
  have hfloor : Int.floor ((1 : ℚ) / 2) = 0 := by
    rw [Int.floor_eq_iff]
    norm_num
  have hcount : truncToInt (((toInt32 1 : Int) : ℚ) * (1 / 2)) = 0 := by
    rw [toInt32_small 1 (by decide)]
    have h0 : (0 : ℚ) ≤ (((1 : Nat) : Int) : ℚ) * (1 / 2) := by norm_num
    have he : (((1 : Nat) : Int) : ℚ) * (1 / 2) = 1 / 2 := by norm_num
    rw [truncToInt, if_pos h0, he, hfloor]
  simp only [Load, RayCount, VerticalRayCount, RangeCount, VerticalRangeCount, planarRay,
    halfSensor, sensorOf, hcount]
  rfl

end Counts

/-- The geometry that `Init` resolves over the reals for two planar samples of
resolution 2: the horizontal ray count is raised to the range count 4, while
`RayCount()` and `VerticalRayCount()` stay at 2 and 1. -/
theorem Init_doubled :
    (Init (Trig.mk Real.pi Real.tan Real.arctan Real.cos) (goodEnv ℝ)
      (doubledSensor ℝ)).horzRayCount = 4 ∧
    (Init (Trig.mk Real.pi Real.tan Real.arctan Real.cos) (goodEnv ℝ)
      (doubledSensor ℝ)).vertRayCount = 1 ∧
    RayCount (Init (Trig.mk Real.pi Real.tan Real.arctan Real.cos) (goodEnv ℝ)
      (doubledSensor ℝ)) = 2 ∧
    VerticalRayCount (Init (Trig.mk Real.pi Real.tan Real.arctan Real.cos) (goodEnv ℝ)
      (doubledSensor ℝ)) = 1 ∧
    (Init (Trig.mk Real.pi Real.tan Real.arctan Real.cos) (goodEnv ℝ)
      (doubledSensor ℝ)).laserCam.isSome = true := by
  obtain ⟨cam1, cam, rays, _, _, e3, e4, e5, e6, e7, _⟩ :=
    Init_reconciled (Trig.mk Real.pi Real.tan Real.arctan Real.cos) (goodEnv ℝ)
      (doubledSensor ℝ) (blankCam ℝ) rfl rfl rfl
  have hh : AngleMax (doubledSensor ℝ) - AngleMin (doubledSensor ℝ) = 1 := by
    simp [AngleMax, AngleMin, doubledSensor, sensorOf, planarRay]
  have hsel : selectCameraCount (1 : ℝ) = 1 := by
    rw [selectCameraCount, if_neg (by norm_num)]
  rw [hh, clampHorzFOV_real 1 (by norm_num), hsel] at e4
  have hrays : rays = (4, 1) := by
    rw [e4]
    simp [raiseRays, doubledSensor, sensorOf]
  have hflat : cam1.isHorizontal = true := by
    rw [e3]
    simp [doubledSensor, sensorOf]
  rw [hrays] at e5 e6
  obtain ⟨r1, r2⟩ := reconcile_flat (Trig.mk Real.pi Real.tan Real.arctan Real.cos) cam1 4 hflat
  have hve := Init_vertElem (Trig.mk Real.pi Real.tan Real.arctan Real.cos) (goodEnv ℝ)
    (doubledSensor ℝ) (blankCam ℝ) rfl rfl rfl
  have hnone : (Init (Trig.mk Real.pi Real.tan Real.arctan Real.cos) (goodEnv ℝ)
      (doubledSensor ℝ)).vertElem = none := by
    rw [hve]
    split_ifs <;> rfl
  refine ⟨e5.trans r1, e6.trans r2, ?_, ?_, ?_⟩
  · rw [RayCount, Init_horzElem]
    rfl
  · rw [VerticalRayCount, hnone]
  · rw [e7]
    rfl


section Claims

variable {K : Type} [LinearOrderedField K] [FloorRing K]

/-- C1: per-sample range masking in `UpdateImpl`.  With no noise model and
`rangeMin < rangeMax`, the range stored for sample `i` by a completed update is
+inf when the raw range is `>= rangeMax`, -inf when it is `<= rangeMin`, and
the raw range itself when it lies strictly between the two bounds. -/
theorem UpdateImpl_masks_ranges (s t : NpsBeamSensor K) (pose : Pose K)
    (data : List (Dbl K × Dbl K)) (b : Bool) (i : Nat) (hi : i < data.length)
    (hr : s.rendered = true) (hnoise : s.noises = none)
    (hlim : Dbl.lt (RangeMin s) (RangeMax s) = true)
    (hrun : UpdateImpl s pose data = some (b, t)) :
    (Dbl.ge (data.get ⟨i, hi⟩).1 (RangeMax s) = true →
      t.laserMsg.scan.ranges[i]? = some Dbl.pinf) ∧
    (Dbl.le (data.get ⟨i, hi⟩).1 (RangeMin s) = true →
      t.laserMsg.scan.ranges[i]? = some Dbl.ninf) ∧
    (Dbl.lt (RangeMin s) (data.get ⟨i, hi⟩).1 = true →
      Dbl.lt (data.get ⟨i, hi⟩).1 (RangeMax s) = true →
      t.laserMsg.scan.ranges[i]? = some (data.get ⟨i, hi⟩).1) := by
  obtain ⟨_, _, _, _, _, hst⟩ := UpdateImpl_stored s t pose data b hr hrun
  have h := (hst i hi).1
  rw [hnoise] at h
  refine ⟨fun hge => ?_, fun hle => ?_, fun h1 h2 => ?_⟩
  · rw [h, maskRange_ge none hge]
  · rw [h, maskRange_le none hlim hle]
  · rw [h, maskRange_inside h1 h2]

/-- Witness of C1: three samples (12, 1/2 and 5) against the bounds 1 and 10. -/
theorem UpdateImpl_masks_ranges_witness :
    (afterUpdate (renderedSensor ℚ none []) (zeroPose ℚ)
      [(Dbl.fin 12, Dbl.fin 0), (Dbl.fin (1 / 2), Dbl.fin 0),
        (Dbl.fin 5, Dbl.fin 0)]).laserMsg.scan.ranges[0]? = some Dbl.pinf ∧
    (afterUpdate (renderedSensor ℚ none []) (zeroPose ℚ)
      [(Dbl.fin 12, Dbl.fin 0), (Dbl.fin (1 / 2), Dbl.fin 0),
        (Dbl.fin 5, Dbl.fin 0)]).laserMsg.scan.ranges[1]? = some Dbl.ninf ∧
    (afterUpdate (renderedSensor ℚ none []) (zeroPose ℚ)
      [(Dbl.fin 12, Dbl.fin 0), (Dbl.fin (1 / 2), Dbl.fin 0),
        (Dbl.fin 5, Dbl.fin 0)]).laserMsg.scan.ranges[2]? = some (Dbl.fin 5) := by
  have hrun := UpdateImpl_total (renderedSensor ℚ none []) (zeroPose ℚ)
    [(Dbl.fin 12, Dbl.fin 0), (Dbl.fin (1 / 2), Dbl.fin 0), (Dbl.fin 5, Dbl.fin 0)]
    rfl (by decide) rfl
  have hlim : Dbl.lt (RangeMin (renderedSensor ℚ none [])) (RangeMax (renderedSensor ℚ none []))
      = true := by
    simp [RangeMin, RangeMax, renderedSensor, Dbl.lt]
  refine ⟨?_, ?_, ?_⟩
  · exact (UpdateImpl_masks_ranges _ _ _ _ true 0 (by simp) rfl rfl hlim hrun).1
      (by simp [RangeMax, renderedSensor, Dbl.ge, Dbl.le]; norm_num)
  · exact (UpdateImpl_masks_ranges _ _ _ _ true 1 (by simp) rfl rfl hlim hrun).2.1
      (by simp [RangeMin, renderedSensor, Dbl.le]; norm_num)
  · exact (UpdateImpl_masks_ranges _ _ _ _ true 2 (by simp) rfl rfl hlim hrun).2.2
      (by simp [RangeMin, renderedSensor, Dbl.lt])
      (by simp [RangeMax, renderedSensor, Dbl.lt]; norm_num)

/-- Update idempotence, as far as the code has it.  From a state in which a
render has completed, the first `UpdateImpl` completes and returns true provided
the samples fit into the message; and whenever the first call completes, it
returns true and a second `UpdateImpl` with no `Render` in between returns false
and leaves the whole state (timestamp, bounds, ranges, intensities, flag)
exactly as the first call left it.  Nothing is said of a first call whose
samples do not fit. -/
theorem UpdateImpl_twice (s : NpsBeamSensor K) (pose pose2 : Pose K)
    (data data2 : List (Dbl K × Dbl K)) (hr : s.rendered = true) :
    (data.length ≤ (RayCount s * VerticalRayCount s).toNat →
      s.laserMsg.scan.intensities.length = s.laserMsg.scan.ranges.length →
      ∃ t, UpdateImpl s pose data = some (true, t)) ∧
    (∀ b t, UpdateImpl s pose data = some (b, t) →
      b = true ∧ UpdateImpl t pose2 data2 = some (false, t)) := by
  refine ⟨fun hfit hlen => ⟨_, UpdateImpl_total s pose data hr hfit hlen⟩, fun b t hrun => ?_⟩
  obtain ⟨hb, hflag, _⟩ := UpdateImpl_stored s t pose data b hr hrun
  exact ⟨hb, UpdateImpl_idle t pose2 data2 hflag⟩

/-- An instance of `UpdateImpl_twice`: a rendered three-ray sensor, updated twice. -/
theorem UpdateImpl_twice_witness :
    (∃ t, UpdateImpl (renderedSensor ℚ none []) (zeroPose ℚ)
      [(Dbl.fin 5, Dbl.fin 2)] = some (true, t)) ∧
    UpdateImpl (afterUpdate (renderedSensor ℚ none []) (zeroPose ℚ) [(Dbl.fin 5, Dbl.fin 2)])
      (zeroPose ℚ) [(Dbl.fin 7, Dbl.fin 3)] =
      some (false,
        afterUpdate (renderedSensor ℚ none []) (zeroPose ℚ) [(Dbl.fin 5, Dbl.fin 2)]) :=
  have h := UpdateImpl_twice (renderedSensor ℚ none []) (zeroPose ℚ) (zeroPose ℚ)
    [(Dbl.fin 5, Dbl.fin 2)] [(Dbl.fin 7, Dbl.fin 3)] rfl
  ⟨h.1 (by decide) rfl,
    (h.2 true _ (UpdateImpl_total _ _ _ rfl (by decide) rfl)).2⟩

/-- C10: noise and NaN sanitisation.  With `rangeMin < rangeMax` (so neither is
NaN), whatever the raw range (NaN included) and whatever the noise model, the
range stored for sample `i` by a completed update is not NaN; when a noise model
`f` is configured and the raw range `r` lies strictly between the bounds, the
stored range lies in `[rangeMin, rangeMax]` and is `rangeMax` when `f r` is NaN. -/
theorem UpdateImpl_sanitises (s t : NpsBeamSensor K) (pose : Pose K)
    (data : List (Dbl K × Dbl K)) (b : Bool) (i : Nat) (hi : i < data.length)
    (hr : s.rendered = true) (hlim : Dbl.lt (RangeMin s) (RangeMax s) = true)
    (hrun : UpdateImpl s pose data = some (b, t)) :
    ∃ v, t.laserMsg.scan.ranges[i]? = some v ∧ Dbl.isnan v = false ∧
      ∀ f, s.noises = some f →
        Dbl.lt (RangeMin s) (data.get ⟨i, hi⟩).1 = true →
        Dbl.lt (data.get ⟨i, hi⟩).1 (RangeMax s) = true →
        Dbl.le (RangeMin s) v = true ∧ Dbl.le v (RangeMax s) = true ∧
        (Dbl.isnan (f (data.get ⟨i, hi⟩).1) = true → v = RangeMax s) := by
  obtain ⟨_, _, _, _, _, hst⟩ := UpdateImpl_stored s t pose data b hr hrun
  refine ⟨_, (hst i hi).1, maskRange_not_nan _ _ hlim, fun f hf h1 h2 => ?_⟩
  rw [hf]
  obtain ⟨e1, e2, e3, _⟩ := maskRange_noise f h1 h2
  exact ⟨e1, e2, e3⟩

/-- Witness of C10: a noise model that answers NaN; the raw range 5 is stored as
the upper bound 10. -/
theorem UpdateImpl_sanitises_witness :
    (afterUpdate (renderedSensor ℚ (some (fun _ => Dbl.nan)) []) (zeroPose ℚ)
      [(Dbl.fin 5, Dbl.fin 2)]).laserMsg.scan.ranges[0]? = some (Dbl.fin 10) := by
  obtain ⟨v, hv, _, hf⟩ := UpdateImpl_sanitises
    (renderedSensor ℚ (some (fun _ => Dbl.nan)) []) _ (zeroPose ℚ)
    [(Dbl.fin 5, Dbl.fin 2)] true 0 (by simp) rfl
    (by simp [RangeMin, RangeMax, renderedSensor, Dbl.lt])
    (UpdateImpl_total _ _ _ rfl (by decide) rfl)
  have hmax := (hf (fun _ => Dbl.nan) rfl
    (by simp [RangeMin, renderedSensor, Dbl.lt])
    (by simp [RangeMax, renderedSensor, Dbl.lt]; norm_num)).2.2 rfl
  rw [hv, hmax]
  rfl

/-- C5: camera-count selection in `Init`.  With `h` the requested horizontal
field of view after the clamp to `2 * M_PI`, the resolved camera count is 1 when
`h <= 2.8`, 2 when `2.8 < h <= 5.6` and 3 when `h > 5.6`. -/
theorem Init_camera_count (T : Trig K) (env : RenderEnv K) (s : NpsBeamSensor K)
    (cam0 : GpuLaser K) (hpath : env.renderPathNone = false)
    (hworld : env.worldNameEmpty = false) (hcam : env.createdCam = some cam0) :
    ∃ cam, (Init T env s).laserCam = some cam ∧
      (clampHorzFOV T (AngleMax s - AngleMin s) ≤ 2.8 → cam.cameraCount = 1) ∧
      (2.8 < clampHorzFOV T (AngleMax s - AngleMin s) →
        clampHorzFOV T (AngleMax s - AngleMin s) ≤ 5.6 → cam.cameraCount = 2) ∧
      (5.6 < clampHorzFOV T (AngleMax s - AngleMin s) → cam.cameraCount = 3) := by
  obtain ⟨cam, hc, _, _, hcount, _⟩ := Init_cam T env s cam0 hpath hworld hcam
  refine ⟨cam, hc, fun h1 => ?_, fun h1 h2 => ?_, fun h1 => ?_⟩
  · rw [hcount, selectCameraCount, if_neg (not_lt.mpr h1)]
  · rw [hcount, selectCameraCount, if_pos h1, if_neg (not_lt.mpr h2)]
  · have h0 : (2.8 : K) < clampHorzFOV T (AngleMax s - AngleMin s) :=
      lt_trans (by norm_num) h1
    rw [hcount, selectCameraCount, if_pos h0, if_pos h1]

/-- Witness of C5: over the reals, the requested fields of view 2.8, 5.6 and 6
give 1, 2 and 3 cameras. -/
theorem Init_camera_count_witness :
    (∃ cam, (Init (Trig.mk Real.pi Real.tan Real.arctan Real.cos) (goodEnv ℝ)
        (sensorOf ℝ (planarRay ℝ 640 1 2.8 (Dbl.fin 1) (Dbl.fin 10) none) 640 1 640 1)).laserCam
        = some cam ∧ cam.cameraCount = 1) ∧
    (∃ cam, (Init (Trig.mk Real.pi Real.tan Real.arctan Real.cos) (goodEnv ℝ)
        (sensorOf ℝ (planarRay ℝ 640 1 5.6 (Dbl.fin 1) (Dbl.fin 10) none) 640 1 640 1)).laserCam
        = some cam ∧ cam.cameraCount = 2) ∧
    (∃ cam, (Init (Trig.mk Real.pi Real.tan Real.arctan Real.cos) (goodEnv ℝ)
        (sensorOf ℝ (planarRay ℝ 640 1 6 (Dbl.fin 1) (Dbl.fin 10) none) 640 1 640 1)).laserCam
        = some cam ∧ cam.cameraCount = 3) := by
  refine ⟨?_, ?_, ?_⟩
  · obtain ⟨cam, hc, h1, _, _⟩ := Init_camera_count
      (Trig.mk Real.pi Real.tan Real.arctan Real.cos) (goodEnv ℝ)
      (sensorOf ℝ (planarRay ℝ 640 1 2.8 (Dbl.fin 1) (Dbl.fin 10) none) 640 1 640 1)
      (blankCam ℝ) rfl rfl rfl
    refine ⟨cam, hc, h1 ?_⟩
    rw [clampHorzFOV_real _ (by simp [AngleMax, AngleMin, sensorOf, planarRay]; norm_num)]
    simp [AngleMax, AngleMin, sensorOf, planarRay]
  · obtain ⟨cam, hc, _, h2, _⟩ := Init_camera_count
      (Trig.mk Real.pi Real.tan Real.arctan Real.cos) (goodEnv ℝ)
      (sensorOf ℝ (planarRay ℝ 640 1 5.6 (Dbl.fin 1) (Dbl.fin 10) none) 640 1 640 1)
      (blankCam ℝ) rfl rfl rfl
    refine ⟨cam, hc, h2 ?_ ?_⟩
    · rw [clampHorzFOV_real _ (by simp [AngleMax, AngleMin, sensorOf, planarRay]; norm_num)]
      simp [AngleMax, AngleMin, sensorOf, planarRay]
      norm_num
    · rw [clampHorzFOV_real _ (by simp [AngleMax, AngleMin, sensorOf, planarRay]; norm_num)]
      simp [AngleMax, AngleMin, sensorOf, planarRay]
  · obtain ⟨cam, hc, _, _, h3⟩ := Init_camera_count
      (Trig.mk Real.pi Real.tan Real.arctan Real.cos) (goodEnv ℝ)
      (sensorOf ℝ (planarRay ℝ 640 1 6 (Dbl.fin 1) (Dbl.fin 10) none) 640 1 640 1)
      (blankCam ℝ) rfl rfl rfl
    refine ⟨cam, hc, h3 ?_⟩
    rw [clampHorzFOV_real _ (by simp [AngleMax, AngleMin, sensorOf, planarRay])]
    simp [AngleMax, AngleMin, sensorOf, planarRay]
    norm_num

/-- C7: vertical field-of-view clamp.  For a sensor with a vertical element
whose field of view `max - min` exceeds `M_PI / 2`, `Init` resolves the vertical
field of view `M_PI / 2` and rewrites the vertical bounds to `m - M_PI / 4` and
`m + M_PI / 4`, with `m` the midpoint of the original bounds; for a field of
view of at most `M_PI / 2` the bounds are unchanged. -/
theorem Init_vertical_clamp (T : Trig K) (env : RenderEnv K) (s : NpsBeamSensor K)
    (cam0 : GpuLaser K) (v : ScanAxis K) (hpath : env.renderPathNone = false)
    (hworld : env.worldNameEmpty = false) (hcam : env.createdCam = some cam0)
    (hv : s.vertElem = some v) :
    ∃ cam, (Init T env s).laserCam = some cam ∧
      (v.max_angle - v.min_angle > T.pi / 2 →
        cam.vertFOV = T.pi / 2 ∧
        VerticalAngleMin (Init T env s) = (v.max_angle + v.min_angle) / 2 - T.pi / 4 ∧
        VerticalAngleMax (Init T env s) = (v.max_angle + v.min_angle) / 2 + T.pi / 4) ∧
      (v.max_angle - v.min_angle ≤ T.pi / 2 →
        cam.vertFOV = v.max_angle - v.min_angle ∧
        VerticalAngleMin (Init T env s) = v.min_angle ∧
        VerticalAngleMax (Init T env s) = v.max_angle) := by
  obtain ⟨cam, hc, _, _, _, _, hfov, _⟩ := Init_cam T env s cam0 hpath hworld hcam
  have hve := Init_vertElem T env s cam0 hpath hworld hcam
  have hmin : VerticalAngleMin s = v.min_angle := by simp [VerticalAngleMin, hv]
  have hmax : VerticalAngleMax s = v.max_angle := by simp [VerticalAngleMax, hv]
  rw [hmin, hmax] at hfov hve
  refine ⟨cam, hc, fun hbig => ?_, fun hsmall => ?_⟩
  · rw [if_pos hbig] at hfov hve
    refine ⟨hfov, ?_, ?_⟩
    · simp only [VerticalAngleMin, hve, hv, Option.map_some']
      ring
    · simp only [VerticalAngleMax, hve, hv, Option.map_some']
      ring
  · rw [if_neg (not_lt.mpr hsmall)] at hfov hve
    refine ⟨hfov, ?_, ?_⟩
    · simp only [VerticalAngleMin, hve, hv]
    · simp only [VerticalAngleMax, hve, hv]

/-- Witness of C7: the scenario of the specification, vertical angles -1.2 .. 1.4
over the reals: the resolved field of view is pi/2 and the new bounds are
0.1 - pi/4 and 0.1 + pi/4. -/
theorem Init_vertical_clamp_witness :
    ∃ cam, (Init (Trig.mk Real.pi Real.tan Real.arctan Real.cos) (goodEnv ℝ)
        (sensorOf ℝ (gridRay ℝ 640 16 0 1 (-1.2) 1.4) 640 16 640 16)).laserCam = some cam ∧
      cam.vertFOV = Real.pi / 2 ∧
      VerticalAngleMin (Init (Trig.mk Real.pi Real.tan Real.arctan Real.cos) (goodEnv ℝ)
        (sensorOf ℝ (gridRay ℝ 640 16 0 1 (-1.2) 1.4) 640 16 640 16)) = 0.1 - Real.pi / 4 ∧
      VerticalAngleMax (Init (Trig.mk Real.pi Real.tan Real.arctan Real.cos) (goodEnv ℝ)
        (sensorOf ℝ (gridRay ℝ 640 16 0 1 (-1.2) 1.4) 640 16 640 16)) = 0.1 + Real.pi / 4 := by
  obtain ⟨cam, hc, hbig, _⟩ := Init_vertical_clamp
    (Trig.mk Real.pi Real.tan Real.arctan Real.cos) (goodEnv ℝ)
    (sensorOf ℝ (gridRay ℝ 640 16 0 1 (-1.2) 1.4) 640 16 640 16) (blankCam ℝ)
    { samples := 16, resolution := 1, min_angle := -1.2, max_angle := 1.4 } rfl rfl rfl rfl
  have hpi := Real.pi_lt_d2
  obtain ⟨h1, h2, h3⟩ := hbig (by
    show (1.4 : ℝ) - (-1.2) > Real.pi / 2
    norm_num at hpi ⊢
    linarith)
  refine ⟨cam, hc, h1, ?_, ?_⟩
  · rw [h2]
    norm_num
  · rw [h3]
    norm_num

/-- C8: horizontal clamp and split.  For every requested horizontal field of
view `h` (in particular every `h >= 0`), the resolved per-camera field of view
is `min h (2 * M_PI)` divided by the camera count; so the sum over the cameras
is `2 * M_PI` when `h` exceeds it, never exceeds `h`, and each camera has at
most `2 * M_PI / cameraCount`. -/
theorem Init_horizontal_split (T : Trig K) (env : RenderEnv K) (s : NpsBeamSensor K)
    (cam0 : GpuLaser K) (hpath : env.renderPathNone = false)
    (hworld : env.worldNameEmpty = false) (hcam : env.createdCam = some cam0) :
    ∃ cam, (Init T env s).laserCam = some cam ∧
      cam.horzFOV = min (AngleMax s - AngleMin s) (2 * T.pi) / (cam.cameraCount : K) ∧
      (AngleMax s - AngleMin s > 2 * T.pi →
        (cam.cameraCount : K) * cam.horzFOV = 2 * T.pi) ∧
      (cam.cameraCount : K) * cam.horzFOV ≤ AngleMax s - AngleMin s ∧
      cam.horzFOV ≤ 2 * T.pi / (cam.cameraCount : K) := by
  obtain ⟨cam, hc, _, _, hcount, hfov, _⟩ := Init_cam T env s cam0 hpath hworld hcam
  have hclamp : clampHorzFOV T (AngleMax s - AngleMin s) =
      min (AngleMax s - AngleMin s) (2 * T.pi) := by
    unfold clampHorzFOV
    split_ifs with hgt
    · exact (min_eq_right (le_of_lt hgt)).symm
    · exact (min_eq_left (not_lt.mp hgt)).symm
  have hpos : (0 : K) < (cam.cameraCount : K) := by
    rw [hcount]
    exact_mod_cast selectCameraCount_pos _
  rw [← hcount, hclamp] at hfov
  have hsum : (cam.cameraCount : K) * cam.horzFOV =
      min (AngleMax s - AngleMin s) (2 * T.pi) := by
    rw [hfov]
    field_simp
  refine ⟨cam, hc, hfov, fun hgt => ?_, ?_, ?_⟩
  · rw [hsum, min_eq_right (le_of_lt hgt)]
  · rw [hsum]
    exact min_le_left _ _
  · rw [hfov]
    exact div_le_div_of_nonneg_right (min_le_right _ _) (le_of_lt hpos)

/-- Witness of C8: over the reals, a requested field of view of 6 radians is
split into 3 cameras of 2 radians each. -/
theorem Init_horizontal_split_witness :
    ∃ cam, (Init (Trig.mk Real.pi Real.tan Real.arctan Real.cos) (goodEnv ℝ)
        (sensorOf ℝ (planarRay ℝ 640 1 6 (Dbl.fin 1) (Dbl.fin 10) none) 640 1 640 1)).laserCam
        = some cam ∧ cam.cameraCount = 3 ∧ cam.horzFOV = 2 := by
  obtain ⟨cam, hc, hfov, _, _, _⟩ := Init_horizontal_split
    (Trig.mk Real.pi Real.tan Real.arctan Real.cos) (goodEnv ℝ)
    (sensorOf ℝ (planarRay ℝ 640 1 6 (Dbl.fin 1) (Dbl.fin 10) none) 640 1 640 1)
    (blankCam ℝ) rfl rfl rfl
  obtain ⟨cam1, hc1, _, _, hcount, _⟩ := Init_cam
    (Trig.mk Real.pi Real.tan Real.arctan Real.cos) (goodEnv ℝ)
    (sensorOf ℝ (planarRay ℝ 640 1 6 (Dbl.fin 1) (Dbl.fin 10) none) 640 1 640 1)
    (blankCam ℝ) rfl rfl rfl
  have hsame : cam1 = cam := Option.some.inj (hc1.symm.trans hc)
  subst hsame
  have hthree : cam1.cameraCount = 3 := by
    rw [hcount, clampHorzFOV_real _ (by simp [AngleMax, AngleMin, sensorOf, planarRay])]
    simp [AngleMax, AngleMin, sensorOf, planarRay, selectCameraCount]
    norm_num
  have hpi := Real.pi_gt_three
  refine ⟨cam1, hc, hthree, ?_⟩
  rw [hfov, hthree]
  simp only [AngleMax, AngleMin, sensorOf, planarRay, sub_zero]
  rw [min_eq_left (by linarith)]
  norm_num

/-- C9 (amended): `AngleResolution` and `VerticalAngleResolution` return
`(angleMax - angleMin) / (rangeCount - 1)` whenever the range count is not 1 (in
particular whenever it is greater than 1); there is no special case for small
counts: with a count of exactly 1 the divisor is zero and the result is NaN
when the two bounds are equal and an infinity of the sign of
`angleMax - angleMin` otherwise. -/
theorem AngleResolution_cases (s : NpsBeamSensor K) :
    (RangeCount s ≠ 1 →
      AngleResolution s =
        Dbl.fin ((AngleMax s - AngleMin s) / ((RangeCount s - 1 : Int) : K))) ∧
    (VerticalRangeCount s ≠ 1 →
      VerticalAngleResolution s =
        Dbl.fin ((VerticalAngleMax s - VerticalAngleMin s) /
          ((VerticalRangeCount s - 1 : Int) : K))) ∧
    (RangeCount s = 1 →
      AngleResolution s =
        if AngleMax s - AngleMin s = 0 then Dbl.nan
        else if 0 < AngleMax s - AngleMin s then Dbl.pinf else Dbl.ninf) ∧
    (VerticalRangeCount s = 1 →
      VerticalAngleResolution s =
        if VerticalAngleMax s - VerticalAngleMin s = 0 then Dbl.nan
        else if 0 < VerticalAngleMax s - VerticalAngleMin s then Dbl.pinf else Dbl.ninf) := by
  refine ⟨fun h => ?_, fun h => ?_, fun h => ?_, fun h => ?_⟩
  · have hne : ((RangeCount s - 1 : Int) : K) ≠ 0 :=
      Int.cast_ne_zero.mpr (sub_ne_zero.mpr h)
    rw [AngleResolution, Dbl.divFinite, if_neg hne]
  · have hne : ((VerticalRangeCount s - 1 : Int) : K) ≠ 0 :=
      Int.cast_ne_zero.mpr (sub_ne_zero.mpr h)
    rw [VerticalAngleResolution, Dbl.divFinite, if_neg hne]
  · rw [AngleResolution, Dbl.divFinite, h]
    simp
  · rw [VerticalAngleResolution, Dbl.divFinite, h]
    simp

/-- Witness of C9 (amended): three rays over the angles 0 .. 1 give the step
1/2; a single ray over the angles 0 .. 1 gives the step +inf. -/
theorem AngleResolution_cases_witness :
    AngleResolution (renderedSensor ℚ none []) = Dbl.fin (1 / 2) ∧
    AngleResolution (sensorOf ℚ (planarRay ℚ 1 1 1 (Dbl.fin 1) (Dbl.fin 10) none) 1 1 1 1)
      = Dbl.pinf := by
  have h3 : RangeCount (renderedSensor ℚ none []) = 3 := by
    simp [RangeCount, RayCount, toInt32, truncToInt, renderedSensor]
  have h1 : RangeCount
      (sensorOf ℚ (planarRay ℚ 1 1 1 (Dbl.fin 1) (Dbl.fin 10) none) 1 1 1 1) = 1 := by
    simp [RangeCount, RayCount, toInt32, truncToInt, sensorOf, planarRay]
  constructor
  · rw [(AngleResolution_cases (renderedSensor ℚ none [])).1 (by rw [h3]; decide), h3]
    simp [AngleMax, AngleMin, renderedSensor]
  · rw [(AngleResolution_cases _).2.2.1 h1]
    simp [AngleMax, AngleMin, sensorOf, planarRay]

/-- C9 as stated fails: with a range count of 1 the step is not 0.  The sensor
loaded for a single ray over the angles 0 .. 1 has range count 1 and the step
+inf; the sensor loaded for a planar description (no vertical element) has
vertical range count 1 and the vertical step NaN. -/
theorem AngleResolution_not_zero_at_count_one :
    Load (planarRay ℚ 1 1 1 (Dbl.fin 1) (Dbl.fin 10) none) =
      Except.ok (sensorOf ℚ (planarRay ℚ 1 1 1 (Dbl.fin 1) (Dbl.fin 10) none) 1 1 1 1) ∧
    Load (planarRay ℚ 640 1 1 (Dbl.fin 1) (Dbl.fin 10) none) =
      Except.ok (sensorOf ℚ (planarRay ℚ 640 1 1 (Dbl.fin 1) (Dbl.fin 10) none) 640 1 640 1) ∧
    RangeCount (sensorOf ℚ (planarRay ℚ 1 1 1 (Dbl.fin 1) (Dbl.fin 10) none) 1 1 1 1) = 1 ∧
    AngleResolution (sensorOf ℚ (planarRay ℚ 1 1 1 (Dbl.fin 1) (Dbl.fin 10) none) 1 1 1 1)
      = Dbl.pinf ∧
    VerticalRangeCount
      (sensorOf ℚ (planarRay ℚ 640 1 1 (Dbl.fin 1) (Dbl.fin 10) none) 640 1 640 1) = 1 ∧
    VerticalAngleResolution
      (sensorOf ℚ (planarRay ℚ 640 1 1 (Dbl.fin 1) (Dbl.fin 10) none) 640 1 640 1)
      = Dbl.nan := by
  refine ⟨Load_planarRay 1 (by decide) (by decide) _ _ _ _,
    Load_planarRay 640 (by decide) (by decide) _ _ _ _, ?_, ?_, ?_, ?_⟩
  · simp [RangeCount, RayCount, toInt32, truncToInt, sensorOf, planarRay]
  · simp [AngleResolution, AngleMax, AngleMin, RangeCount, RayCount, toInt32, truncToInt,
      Dbl.divFinite, sensorOf, planarRay]
  · simp [VerticalRangeCount, sensorOf, planarRay]
  · simp [VerticalAngleResolution, VerticalAngleMax, VerticalAngleMin, VerticalRangeCount,
      Dbl.divFinite, sensorOf, planarRay]

/-- C6 (amended): whenever the geometry resolved by `Init` has more than one ray
on both axes, the ratio it stores is `tan(horzFOV/2) / tan(cosVertFOV/2)`, where
`horzFOV` is the resolved per-camera horizontal field of view and `cosVertFOV`
is the corrected vertical field of view
`2 atan(tan(vertFOV/2) / cos(horzFOV/2))`, not the resolved `vertFOV` itself. -/
theorem Init_rayCountRatio (T : Trig K) (env : RenderEnv K) (s : NpsBeamSensor K)
    (cam0 : GpuLaser K) (hpath : env.renderPathNone = false)
    (hworld : env.worldNameEmpty = false) (hcam : env.createdCam = some cam0)
    (hh : 1 < (Init T env s).horzRayCount) (hv : 1 < (Init T env s).vertRayCount) :
    ∃ cam, (Init T env s).laserCam = some cam ∧
      cam.cosVertFOV = 2 * T.atan (T.tan (cam.vertFOV / 2) / T.cos (cam.horzFOV / 2)) ∧
      cam.rayCountRatio = T.tan (cam.horzFOV / 2) / T.tan (cam.cosVertFOV / 2) := by
  obtain ⟨cam1, cam, rays, _, _, e3, e4, e5, e6, e7, e8, e9, e10, _, e12⟩ :=
    Init_reconciled T env s cam0 hpath hworld hcam
  have hflat : cam1.isHorizontal = true → rays.2 ≤ 1 := by
    intro hhor
    rw [e3, decide_eq_true_eq] at hhor
    simp only [e4, raiseRays, hhor, if_true]
    split_ifs <;> simp
  rw [e5] at hh
  rw [e6] at hv
  obtain ⟨r1, r2⟩ := reconcile_ratio T cam1 rays.1 rays.2 hflat hh hv
  refine ⟨cam, e7, ?_, ?_⟩
  · rw [e10, e8, e9, r1]
  · rw [e12, e10, e8, r2]

/-- Witness of C6 (amended): two by two samples over the angles `0 .. 1`, over the
reals; both resolved ray counts are 2. -/
theorem Init_rayCountRatio_witness :
    ∃ cam, (Init (Trig.mk Real.pi Real.tan Real.arctan Real.cos) (goodEnv ℝ)
        (sensorOf ℝ (gridRay ℝ 2 2 0 1 0 1) 2 2 2 2)).laserCam = some cam ∧
      cam.cosVertFOV =
        2 * Real.arctan (Real.tan (cam.vertFOV / 2) / Real.cos (cam.horzFOV / 2)) ∧
      cam.rayCountRatio = Real.tan (cam.horzFOV / 2) / Real.tan (cam.cosVertFOV / 2) :=
  Init_rayCountRatio (Trig.mk Real.pi Real.tan Real.arctan Real.cos) (goodEnv ℝ)
    (sensorOf ℝ (gridRay ℝ 2 2 0 1 0 1) 2 2 2 2) (blankCam ℝ) rfl rfl rfl
    (by rw [Init_unit_grid.1]; decide) (by rw [Init_unit_grid.2.1]; decide)

/-- C6 as stated fails: for the sensor loaded from two by two samples over the
angles `0 .. 1` the geometry resolved by `Init` over the reals has 2 rays on
both axes and both fields of view equal to 1,
so `tan(horzFOV/2) / tan(vertFOV/2) = 1`, but the stored ratio is `cos(1/2)`. -/
theorem Init_rayCountRatio_is_not_tan_quotient :
    Load (gridRay ℝ 2 2 0 1 0 1) = Except.ok (sensorOf ℝ (gridRay ℝ 2 2 0 1 0 1) 2 2 2 2) ∧
    1 < (Init (Trig.mk Real.pi Real.tan Real.arctan Real.cos) (goodEnv ℝ)
      (sensorOf ℝ (gridRay ℝ 2 2 0 1 0 1) 2 2 2 2)).horzRayCount ∧
    1 < (Init (Trig.mk Real.pi Real.tan Real.arctan Real.cos) (goodEnv ℝ)
      (sensorOf ℝ (gridRay ℝ 2 2 0 1 0 1) 2 2 2 2)).vertRayCount ∧
    ∃ cam, (Init (Trig.mk Real.pi Real.tan Real.arctan Real.cos) (goodEnv ℝ)
      (sensorOf ℝ (gridRay ℝ 2 2 0 1 0 1) 2 2 2 2)).laserCam = some cam ∧
      Real.tan (cam.horzFOV / 2) / Real.tan (cam.vertFOV / 2) = 1 ∧
      cam.rayCountRatio = Real.cos (1 / 2) ∧
      cam.rayCountRatio ≠ Real.tan (cam.horzFOV / 2) / Real.tan (cam.vertFOV / 2) := by
  obtain ⟨e1, e2, cam, hc, hf, vf, hr⟩ := Init_unit_grid
  have ht := tan_half_pos
  have hq : Real.tan (cam.horzFOV / 2) / Real.tan (cam.vertFOV / 2) = 1 := by
    rw [hf, vf]
    exact div_self (ne_of_gt ht)
  refine ⟨Load_gridRay 2 2 (by decide) (by decide) (by decide) (by decide) 0 1 0 1,
    by rw [e1]; decide, by rw [e2]; decide, cam, hc, hq, hr, ?_⟩
  rw [hq, hr]
  exact ne_of_lt cos_half_bounds.2

/-- C11 (the code at the failing input): for one horizontal sample with the
non-negative resolution 1/2 and no vertical element, `Load` succeeds and stores
the horizontal range count 0: `RangeCount()` is the truncated product
`samples * resolution` with no clamp, unlike `VerticalRangeCount()`, which is 1
here and at least 1 always. -/
theorem RangeCount_zero_at_half_resolution :
    Load (planarRay ℚ 1 (1 / 2) 1 (Dbl.fin 1) (Dbl.fin 10) none) =
      Except.ok (halfSensor ℚ) ∧
    (halfSensor ℚ).horzRangeCount = 0 ∧
    RangeCount (halfSensor ℚ) = 0 ∧
    ¬ (1 ≤ RangeCount (halfSensor ℚ)) ∧
    VerticalRangeCount (halfSensor ℚ) = 1 := by
  have hlt : RangeCount (halfSensor ℚ) < 1 :=
    RangeCount_lt_one (halfSensor ℚ) (by
      simp [RayCount, toInt32, halfSensor, sensorOf, planarRay]
      norm_num)
  have hzero : RangeCount (halfSensor ℚ) = 0 := by
    have hnn : 0 ≤ RangeCount (halfSensor ℚ) := by
      simp only [RangeCount, truncToInt, RayCount, halfSensor, sensorOf, planarRay]
      rw [toInt32_small 1 (by decide)]
      have h0 : (0 : ℚ) ≤ ((1 : Nat) : Int) * (1 / 2) := by norm_num
      rw [if_pos h0]
      exact Int.floor_nonneg.mpr h0
    omega
  refine ⟨Load_half, rfl, hzero, by omega, ?_⟩
  simp [VerticalRangeCount, halfSensor, sensorOf, planarRay]

/-- C12 (the code at the failing input): for two planar samples of resolution 2,
`Init` resolves 4 by 1 rays while `RayCount() * VerticalRayCount()` stays 2, so
when the depth source yields the 4 samples of the resolved ray counts after a
render, `UpdateImpl` sizes both sequences to 2 and then writes past their
end. -/
theorem UpdateImpl_overruns_message :
    Load (planarRay ℝ 2 2 1 (Dbl.fin 1) (Dbl.fin 10) none) = Except.ok (doubledSensor ℝ) ∧
    (Init (Trig.mk Real.pi Real.tan Real.arctan Real.cos) (goodEnv ℝ)
        (doubledSensor ℝ)).horzRayCount *
      (Init (Trig.mk Real.pi Real.tan Real.arctan Real.cos) (goodEnv ℝ)
        (doubledSensor ℝ)).vertRayCount = (fourSamples ℝ).length ∧
    (RayCount (Render (Init (Trig.mk Real.pi Real.tan Real.arctan Real.cos) (goodEnv ℝ)
        (doubledSensor ℝ)) true true 7) *
      VerticalRayCount (Render (Init (Trig.mk Real.pi Real.tan Real.arctan Real.cos)
        (goodEnv ℝ) (doubledSensor ℝ)) true true 7)).toNat = 2 ∧
    (Render (Init (Trig.mk Real.pi Real.tan Real.arctan Real.cos) (goodEnv ℝ)
      (doubledSensor ℝ)) true true 7).rendered = true ∧
    UpdateImpl (Render (Init (Trig.mk Real.pi Real.tan Real.arctan Real.cos) (goodEnv ℝ)
      (doubledSensor ℝ)) true true 7) (zeroPose ℝ) (fourSamples ℝ) = none := by
  obtain ⟨e1, e2, e3, e4, e5⟩ := Init_doubled
  have hsome : (Init (Trig.mk Real.pi Real.tan Real.arctan Real.cos) (goodEnv ℝ)
      (doubledSensor ℝ)).laserCam.isNone = false := by
    rw [Option.isNone_eq_false_iff]
    exact e5
  have hrender : Render (Init (Trig.mk Real.pi Real.tan Real.arctan Real.cos) (goodEnv ℝ)
      (doubledSensor ℝ)) true true 7 =
      { Init (Trig.mk Real.pi Real.tan Real.arctan Real.cos) (goodEnv ℝ) (doubledSensor ℝ) with
        lastMeasurementTime := 7, rendered := true } := by
    simp [Render, hsome]
  have hrays : (RayCount (Render (Init (Trig.mk Real.pi Real.tan Real.arctan Real.cos)
      (goodEnv ℝ) (doubledSensor ℝ)) true true 7) *
      VerticalRayCount (Render (Init (Trig.mk Real.pi Real.tan Real.arctan Real.cos)
        (goodEnv ℝ) (doubledSensor ℝ)) true true 7)).toNat = 2 := by
    rw [hrender]
    have h3 : RayCount { Init (Trig.mk Real.pi Real.tan Real.arctan Real.cos) (goodEnv ℝ)
        (doubledSensor ℝ) with lastMeasurementTime := 7, rendered := true } = 2 := e3
    have h4 : VerticalRayCount { Init (Trig.mk Real.pi Real.tan Real.arctan Real.cos)
        (goodEnv ℝ) (doubledSensor ℝ) with lastMeasurementTime := 7, rendered := true } = 1 := e4
    rw [h3, h4]
    rfl
  have hflag : (Render (Init (Trig.mk Real.pi Real.tan Real.arctan Real.cos) (goodEnv ℝ)
      (doubledSensor ℝ)) true true 7).rendered = true := by
    rw [hrender]
  refine ⟨Load_doubled, ?_, hrays, hflag, ?_⟩
  · rw [e1, e2]
    rfl
  · apply UpdateImpl_overrun _ _ _ hflag
    rw [hrays]
    decide

end Claims

end NpsBeam
